import Mathlib

/-!
Shallow embedding of the on-device text-analytics core of the voice-notes
application (sentiment analysis, extractive summarization, filler-word
detection, vocabulary insights, semantic search, automatic tagging), together
with theorems settling the specification claims about it.

Strings are modelled as Lean strings over their character lists; the JavaScript
numeric type is modelled by the exact rationals; the regular expressions used
by the source are implemented as explicit character scanners with the same
observable behaviour on the relevant character classes.  The embedding covers
the ASCII fragment of the JS Unicode string semantics (all concrete inputs in
this development are ASCII), plus the standard JS whitespace class.
-/

namespace VoiceNotes

/-- The character class of the JS regex `\s` (which is also the class stripped
by `String.prototype.trim`). -/
def jsWhitespaceChars : List Char :=
  [' ', '\t', '\n', '\r', '\x0b', '\x0c',
   '\u00A0', '\u1680', '\u2000', '\u2001', '\u2002', '\u2003', '\u2004',
   '\u2005', '\u2006', '\u2007', '\u2008', '\u2009', '\u200A',
   '\u2028', '\u2029', '\u202F', '\u205F', '\u3000', '\uFEFF']

def isSpaceJS (c : Char) : Bool :=
  jsWhitespaceChars.contains c

/-- The character class of the JS regex `\w`: `[A-Za-z0-9_]`. -/
def isWordCharJS (c : Char) : Bool :=
  decide (('a' ≤ c ∧ c ≤ 'z') ∨ ('A' ≤ c ∧ c ≤ 'Z') ∨ ('0' ≤ c ∧ c ≤ '9') ∨ c = '_')

def isDigitJS (c : Char) : Bool :=
  decide ('0' ≤ c ∧ c ≤ '9')

/-- JS `String.prototype.toLowerCase` on the ASCII fragment. -/
def lowerJS (s : String) : String :=
  String.mk (s.data.map Char.toLower)

/-- JS `String.prototype.trim`: strip leading and trailing `\s` characters. -/
def trimJS (s : String) : String :=
  String.mk (((s.data.dropWhile isSpaceJS).reverse.dropWhile isSpaceJS).reverse)

/-- Exact-prefix test on character lists. -/
def isPre : List Char → List Char → Bool
  | [], _ => true
  | _ :: _, [] => false
  | a :: as, b :: bs => a = b && isPre as bs

/-- JS `String.prototype.includes`: substring containment. -/
def containsSubL (hay needle : List Char) : Bool :=
  match hay with
  | [] => needle.isEmpty
  | _ :: t => isPre needle hay || containsSubL t needle

def containsSub (hay needle : String) : Bool :=
  containsSubL hay.data needle.data

/-- JS `String.prototype.startsWith`. -/
def startsWithJS (s pre : String) : Bool :=
  isPre pre.data s.data

/-- JS `String.prototype.endsWith`. -/
def endsWithJS (s suf : String) : Bool :=
  isPre suf.data.reverse s.data.reverse

/-- JS `s.substring(start, stop)` (with `start ≤ stop`, as in every call site). -/
def subStr (s : String) (start stop : ℕ) : String :=
  String.mk ((s.data.drop start).take (stop - start))

/-- State of the JS character-class split scanners: pieces emitted so far (in
reverse), the current piece (in reverse), whether the scanner is inside a
separator run, and the previous character. -/
structure SplitState where
  done : List String
  cur : List Char
  inRun : Bool
  prev : Option Char

/-- One step of the split on a one-or-more character-class regex (`/\s+/`,
`/[.!?]+/`): a character satisfying `p` starts or extends a separator run;
runs separate adjacent pieces, so empty pieces appear at the ends exactly as
in JS. -/
def splitRunsStep (p : Char → Bool) (st : SplitState) (c : Char) : SplitState :=
  if p c then
    if st.inRun then { st with prev := some c }
    else { done := String.mk st.cur.reverse :: st.done, cur := [], inRun := true, prev := some c }
  else
    { st with cur := c :: st.cur, inRun := false, prev := some c }

def splitFinish (st : SplitState) : List String :=
  (String.mk st.cur.reverse :: st.done).reverse

/-- JS `String.prototype.split` on a one-or-more character-class regex. -/
def splitRuns (p : Char → Bool) (s : String) : List String :=
  splitFinish (s.data.foldl (splitRunsStep p) ⟨[], [], false, none⟩)

/-- JS `String.prototype.split(/(?<=[.!?\n])\s+/)` (the summarizer's sentence
split): the separators are maximal whitespace runs whose first character is
preceded by `.`, `!`, `?` or a newline. -/
def isSentTerm (c : Char) : Bool :=
  decide (c = '.' ∨ c = '!' ∨ c = '?' ∨ c = '\n')

/-- One step of the look-behind split: a whitespace character is a separator
when it extends a current separator run, or when the previous character is a
sentence terminator (the greedy `\s+` match anchored by the look-behind). -/
def sentSplitStep (st : SplitState) (c : Char) : SplitState :=
  if isSpaceJS c && (st.inRun || (match st.prev with | some p => isSentTerm p | none => false)) then
    if st.inRun then { st with prev := some c }
    else { done := String.mk st.cur.reverse :: st.done, cur := [], inRun := true, prev := some c }
  else
    { st with cur := c :: st.cur, inRun := false, prev := some c }

def sentSplit (s : String) : List String :=
  splitFinish (s.data.foldl sentSplitStep ⟨[], [], false, none⟩)

/-- The insertion-order deduplication performed by a JS `Set`: keep the first
occurrence of each element. -/
def firstDedup {α : Type} [DecidableEq α] : List α → List α
  | [] => []
  | a :: as => a :: (firstDedup as).filter (fun x => x ≠ a)

/-- JS `Math.round`: round half away from zero towards plus infinity. -/
def roundJS (q : ℚ) : ℚ :=
  (⌊q + 1/2⌋ : ℤ)

/-- `Math.round(q * 100) / 100` (two decimal places). -/
def round2 (q : ℚ) : ℚ := roundJS (q * 100) / 100

/-- `Math.round(q * 10) / 10` (one decimal place). -/
def round1 (q : ℚ) : ℚ := roundJS (q * 10) / 10

/-- `Math.round(q * 1000) / 1000` (three decimal places). -/
def round3 (q : ℚ) : ℚ := roundJS (q * 1000) / 1000

/-- JS `Math.max(...list)` over a nonempty numeric array. -/
def listMaxD : List ℚ → ℚ
  | [] => 0
  | h :: t => t.foldl max h

/-- JS `Math.min(...list)` over a nonempty numeric array. -/
def listMinD : List ℚ → ℚ
  | [] => 0
  | h :: t => t.foldl min h

/-- JS `x || d` on numbers: `x` when nonzero, otherwise the default `d`. -/
def orQ (x d : ℚ) : ℚ := if x = 0 then d else x

/-- Association-list lookup modelling indexing into a JS object literal. -/
def alookup {β : Type} : List (String × β) → String → Option β
  | [], _ => none
  | (k, v) :: t, w => if w = k then some v else alookup t w

/-- All non-overlapping occurrence positions of `needle` in `hay` found by the
JS `indexOf` loop that restarts the search `needle.length` past each hit.
The extra fuel argument (instantiated with the text length, which each step
strictly consumes) keeps the recursion structural. -/
def findOccF (needle : List Char) : ℕ → List Char → ℕ → List ℕ
  | 0, _, _ => []
  | _ + 1, [], _ => []
  | fuel + 1, h :: t, pos =>
    if isPre needle (h :: t) then
      pos :: findOccF needle fuel (t.drop (needle.length - 1)) (pos + needle.length)
    else
      findOccF needle fuel t (pos + 1)

def findOcc (needle hay : List Char) : List ℕ :=
  findOccF needle hay.length hay 0

/-! ### Sentiment analyzer (`src/utils/sentimentAnalysis.ts`) -/

namespace Sentiment

open VoiceNotes

/-- `POSITIVE_WORDS`: positive words with intensity in (0, 1]. -/
def POSITIVE_WORDS : List (String × ℚ) :=
  [("good", 7/10), ("great", 9/10), ("excellent", 95/100), ("amazing", 95/100),
   ("wonderful", 9/10), ("fantastic", 95/100), ("brilliant", 9/10), ("awesome", 95/100),
   ("perfect", 95/100), ("beautiful", 85/100), ("love", 9/10), ("happy", 85/100),
   ("glad", 8/10), ("pleased", 8/10), ("satisfied", 75/100), ("proud", 85/100),
   ("confident", 75/100), ("successful", 85/100), ("winning", 85/100),
   ("accomplished", 85/100), ("thrilled", 9/10), ("delighted", 9/10),
   ("grateful", 85/100), ("appreciate", 8/10), ("inspired", 85/100),
   ("motivated", 8/10), ("excited", 85/100), ("optimistic", 8/10),
   ("positive", 75/100), ("improvement", 7/10), ("better", 7/10), ("best", 85/100),
   ("success", 85/100), ("achieve", 75/100), ("victory", 85/100), ("triumph", 85/100),
   ("well", 6/10), ("nice", 7/10), ("cool", 7/10), ("enjoyed", 8/10), ("fun", 75/100),
   ("interesting", 65/100), ("fascinated", 8/10)]

/-- `NEGATIVE_WORDS`: negative words with intensity in (0, 1]. -/
def NEGATIVE_WORDS : List (String × ℚ) :=
  [("bad", 7/10), ("terrible", 95/100), ("horrible", 95/100), ("awful", 95/100),
   ("hate", 9/10), ("angry", 85/100), ("upset", 8/10), ("sad", 85/100),
   ("depressed", 9/10), ("disappointed", 8/10), ("frustrated", 8/10),
   ("annoyed", 7/10), ("bored", 7/10), ("tired", 65/100), ("stressed", 8/10),
   ("anxious", 8/10), ("worried", 8/10), ("afraid", 85/100), ("scared", 85/100),
   ("difficult", 65/100), ("problem", 7/10), ("issue", 65/100), ("failed", 85/100),
   ("failure", 85/100), ("loss", 8/10), ("lost", 75/100), ("worst", 9/10),
   ("wrong", 7/10), ("mistake", 65/100), ("error", 65/100), ("bug", 6/10),
   ("pain", 8/10), ("hurt", 75/100), ("sick", 75/100), ("ill", 7/10),
   ("negative", 75/100), ("useless", 85/100), ("worthless", 85/100),
   ("stupid", 85/100), ("dumb", 85/100), ("ridiculous", 8/10), ("pathetic", 85/100),
   ("disgusting", 9/10), ("disgusted", 85/100), ("furious", 9/10),
   ("enraged", 95/100), ("devastated", 9/10), ("miserable", 9/10), ("dreadful", 9/10)]

/-- `INTENSIFIERS`: multiplier applied to a sentiment word preceded by one. -/
def INTENSIFIERS : List (String × ℚ) :=
  [("very", 12/10), ("extremely", 13/10), ("so", 12/10), ("really", 12/10),
   ("quite", 11/10), ("absolutely", 13/10), ("totally", 13/10),
   ("completely", 13/10), ("utterly", 13/10)]

/-- `NEGATIONS`: words that flip the following sentiment word at half strength. -/
def NEGATIONS : List String :=
  ["not", "no", "never", "neither", "nobody", "nothing", "hardly", "barely", "rarely"]

/-- `tokenizeSentences`: split on `/[.!?]+/`, trim, drop empties. -/
def tokenizeSentences (text : String) : List String :=
  ((splitRuns (fun c => decide (c = '.' ∨ c = '!' ∨ c = '?')) text).map trimJS).filter
    (fun s => s.length > 0)

/-- `tokenizeWords`: lowercase, delete every character outside `[\w\s'-]`,
split on whitespace, drop empties. -/
def tokenizeWords (text : String) : List String :=
  (splitRuns isSpaceJS
      (String.mk ((lowerJS text).data.filter
        (fun c => isWordCharJS c || isSpaceJS c || c = '\'' || c = '-')))).filter
    (fun w => w.length > 0)

structure SentimentScore where
  positive : ℚ
  negative : ℚ
  neutral : ℚ
  compound : ℚ
deriving DecidableEq

inductive SLabel
  | Positive
  | Negative
  | Neutral
  | Mixed
deriving DecidableEq

structure KeyPhrase where
  phrase : String
  sentiment : SLabel
  intensity : ℚ
deriving DecidableEq

structure SentSentence where
  text : String
  sentiment : SentimentScore
  sentiment_label : SLabel
deriving DecidableEq

structure SentimentAnalysis where
  overall : SentimentScore
  sentiment : SLabel
  confidence : ℚ
  sentences : List SentSentence
  emotionalTone : String
  keyPhrases : List KeyPhrase
  analysisDate : ℕ
deriving DecidableEq

/-- `extractKeyPhrases`: the fixed positive phrase patterns. -/
def positivePatterns : List String :=
  ["very good", "really great", "so good", "so great", "absolutely love",
   "really love", "great job", "well done", "impressed with", "looking forward",
   "cant wait", "excited about", "look forward", "good news", "great idea",
   "brilliant idea", "brilliant work"]

/-- `extractKeyPhrases`: the fixed negative phrase patterns. -/
def negativePatterns : List String :=
  ["very bad", "really bad", "so bad", "absolutely hate", "hate it", "dont like",
   "not good", "not great", "bad news", "bad luck", "terrible idea", "awful idea",
   "not happy", "really upset", "very upset", "extremely disappointed",
   "totally disappointed", "never again", "wasted time"]

/-- `extractKeyPhrases`: substring-match the fixed phrase lists against the
lowercased text, each hit at fixed intensity 0.8. -/
def extractKeyPhrases (text : String) : List KeyPhrase :=
  let lowerText := lowerJS text
  (positivePatterns.filter (fun p => containsSub lowerText p)).map
      (fun p => ⟨p, SLabel.Positive, 8/10⟩) ++
    (negativePatterns.filter (fun p => containsSub lowerText p)).map
      (fun p => ⟨p, SLabel.Negative, 8/10⟩)

/-- The intensifier look-back of the `calculateSentiment` word loop:
`if (i > 0 && INTENSIFIERS[words[i-1]]) score *= INTENSIFIERS[words[i-1]]`. -/
def intensify (prev : Option String) (score0 : ℚ) : ℚ :=
  match prev with
  | some p =>
    match alookup INTENSIFIERS p with
    | some m => score0 * m
    | none => score0
  | none => score0

/-- The negation look-back: `i > 0 && NEGATIONS.includes(words[i-1])`. -/
def hasNegationB (prev : Option String) : Bool :=
  match prev with
  | some p => NEGATIONS.contains p
  | none => false

/-- One iteration of the `calculateSentiment` word loop: the (positive,
negative) contribution of `word` given the previous token `prev`.  The JS
truthiness test `if (POSITIVE_WORDS[word])` is modelled as a nonzero test on
the looked-up weight (every table weight is nonzero). -/
def sentContribution (prev : Option String) (word : String) : ℚ × ℚ :=
  let pv := (alookup POSITIVE_WORDS word).getD 0
  let nv := (alookup NEGATIVE_WORDS word).getD 0
  let score0 : ℚ := if pv ≠ 0 then pv else if nv ≠ 0 then nv else 0
  let isPositive : Bool := pv ≠ 0
  if score0 > 0 then
    let score : ℚ := intensify prev score0
    if hasNegationB prev then
      if isPositive then (0, score * (1/2)) else (score * (1/2), 0)
    else
      if isPositive then (score, 0) else (0, score)
  else (0, 0)

/-- The `calculateSentiment` accumulation loop over the word list, threading
the previous token for the intensifier / negation look-back. -/
def sentAccum : Option String → List String → ℚ × ℚ
  | _, [] => (0, 0)
  | prev, w :: ws =>
    let c := sentContribution prev w
    let rest := sentAccum (some w) ws
    (c.1 + rest.1, c.2 + rest.2)

/-- `calculateSentiment`: accumulate positive/negative scores over the words,
then normalize exactly as the source does. -/
def calculateSentiment (text : String) : SentimentScore :=
  let words := tokenizeWords text
  let acc := sentAccum none words
  let positiveScore := acc.1
  let negativeScore := acc.2
  let totalScore := positiveScore + negativeScore
  let normalizedPositive := if totalScore > 0 then positiveScore / totalScore else 0
  let normalizedNegative := if totalScore > 0 then negativeScore / totalScore else 0
  let neutral := 1 - (normalizedPositive + normalizedNegative)
  let compound := (positiveScore - negativeScore) / max totalScore 1
  { positive := min normalizedPositive 1
    negative := min normalizedNegative 1
    neutral := max neutral 0
    compound := max (-1) (min 1 compound) }

/-- `classifySentiment(compound, positive, negative)`. -/
def classifySentiment (compound positive negative : ℚ) : SLabel :=
  if positive > 3/10 ∧ negative > 3/10 then SLabel.Mixed
  else if compound ≥ 5/100 then SLabel.Positive
  else if compound ≤ -(5/100) then SLabel.Negative
  else SLabel.Neutral

/-- `getEmotionalTone`. -/
def getEmotionalTone (sentiment : SLabel) (compound : ℚ) : String :=
  match sentiment with
  | SLabel.Positive =>
    if compound > 1/2 then "Very Positive - Highly enthusiastic and optimistic"
    else if compound > 2/10 then "Positive - Satisfied and content"
    else "Somewhat Positive - Mildly favorable"
  | SLabel.Negative =>
    if compound < -(1/2) then "Very Negative - Highly critical and upset"
    else if compound < -(2/10) then "Negative - Dissatisfied and concerned"
    else "Somewhat Negative - Slightly unfavorable"
  | SLabel.Mixed => "Mixed - Both positive and negative sentiments present"
  | SLabel.Neutral => "Neutral - Objective and impartial tone"

/-- `analyzeSentiment`.  The effectful `new Date()` is modelled by the explicit
`now` argument.  The overall classification call passes
`(positive, negative, compound)` into `classifySentiment(compound, positive,
negative)` exactly as the source does at its call site (argument order kept). -/
def analyzeSentiment (text : String) (now : ℕ) : SentimentAnalysis :=
  if text = "" ∨ (trimJS text).length = 0 then
    { overall := ⟨0, 0, 1, 0⟩
      sentiment := SLabel.Neutral
      confidence := 0
      sentences := []
      emotionalTone := "No content to analyze"
      keyPhrases := []
      analysisDate := now }
  else
    let overallScore := calculateSentiment text
    let overallSentiment :=
      classifySentiment overallScore.positive overallScore.negative overallScore.compound
    let sentences := (tokenizeSentences text).map (fun sentence =>
      let score := calculateSentiment sentence
      let sentiment := classifySentiment score.compound score.positive score.negative
      ({ text := sentence, sentiment := score, sentiment_label := sentiment } : SentSentence))
    let keyPhrases := extractKeyPhrases text
    let sentimentWords := (tokenizeWords text).filter (fun w =>
      decide ((alookup POSITIVE_WORDS w).getD 0 ≠ 0) ||
        decide ((alookup NEGATIVE_WORDS w).getD 0 ≠ 0) || NEGATIONS.contains w)
    let confidence :=
      min ((sentimentWords.length : ℚ) / max ((tokenizeWords text).length : ℚ) 1) 1
    let emotionalTone := getEmotionalTone overallSentiment overallScore.compound
    { overall := overallScore
      sentiment := overallSentiment
      confidence := confidence
      sentences := sentences
      emotionalTone := emotionalTone
      keyPhrases := keyPhrases
      analysisDate := now }

end Sentiment

/-! ### Extractive summarizer (`src/utils/summarization.ts`) -/

namespace Summar

/-- `STOP_WORDS` of the summarizer. -/
def STOP_WORDS : List String :=
  ["the", "a", "an", "and", "or", "but", "in", "on", "at", "to", "for",
   "of", "with", "by", "from", "as", "is", "was", "are", "be", "been",
   "have", "has", "had", "do", "does", "did", "will", "would", "should",
   "could", "can", "may", "might", "must", "shall", "this", "that",
   "these", "those", "i", "you", "he", "she", "it", "we", "they",
   "what", "which", "who", "where", "when", "why", "how"]

/-- `SIGNIFICANCE_KEYWORDS`: words whose presence boosts a sentence score. -/
def SIGNIFICANCE_KEYWORDS : List (String × ℚ) :=
  [("important", 3), ("critical", 3), ("urgent", 3), ("key", 2), ("must", 2),
   ("need", 2), ("issue", 2), ("problem", 2), ("solution", 2), ("result", 2),
   ("decision", 2), ("action", 2), ("meeting", 3/2), ("discussion", 3/2),
   ("agreed", 2), ("decided", 2), ("completed", 3/2), ("deadline", 2),
   ("goal", 3/2), ("budget", 3/2), ("revenue", 3/2), ("client", 3/2),
   ("customer", 3/2)]

structure SummaryInfo where
  summary : String
  sentences : List String
  wordCount : ℕ
  generatedAt : ℕ
deriving DecidableEq

/-- `tokenizeSentences`: split on `/(?<=[.!?\n])\s+/`, trim, drop empties. -/
def tokenizeSentences (text : String) : List String :=
  ((sentSplit text).map trimJS).filter (fun s => s.length > 0)

/-- `tokenizeWords`: lowercase, replace every character outside `[\w\s]` by a
space, split on whitespace, drop empties. -/
def tokenizeWords (text : String) : List String :=
  (splitRuns isSpaceJS
      (String.mk ((lowerJS text).data.map
        (fun c => if isWordCharJS c || isSpaceJS c then c else ' ')))).filter
    (fun w => w.length > 0)

/-- `calculateWordFrequency`, modelled as the lookup function of the JS `Map`
it builds: stop words are never inserted (count 0 via `|| 0`), every other
word maps to its occurrence count. -/
def wordFrequencyFn (text : String) (w : String) : ℚ :=
  if STOP_WORDS.contains w then 0 else ((tokenizeWords text).count w : ℚ)

/-- `calculateSentenceScore`. -/
def calculateSentenceScore (sentence : String) (wordFrequency : String → ℚ)
    (position totalSentences : ℕ) : ℚ :=
  let words := tokenizeWords sentence
  let score := (words.map wordFrequency).sum
  let score := score + (words.map (fun w => (alookup SIGNIFICANCE_KEYWORDS w).getD 0)).sum
  let score := if position = 0 ∨ position = totalSentences - 1 then score * (115/100) else score
  let score := if words.length < 5 then score * (7/10) else score
  if words.length > 30 then score * (85/100) else score

/-- `sentenceToVector`: the term-frequency `Map` of a sentence, modelled as an
association list whose keys are in first-occurrence order with their final
counts (exactly the entry sequence of the JS `Map`). -/
def sentenceToVector (sentence : String) : List (String × ℚ) :=
  let ws := (tokenizeWords sentence).filter (fun w => !STOP_WORDS.contains w)
  (firstDedup ws).map (fun w => (w, (ws.count w : ℚ)))

/-- `cosineSimilarity`.  `Math.sqrt` is not rational-valued, so the embedding
abstracts it as the function parameter `sqrtQ`; every theorem below holds for
every choice of `sqrtQ`. -/
def cosineSimilarity (sqrtQ : ℚ → ℚ) (a b : List (String × ℚ)) : ℚ :=
  let na := (a.map (fun kv => kv.2 * kv.2)).sum
  let dot := (a.map (fun kv => kv.2 * ((alookup b kv.1).getD 0))).sum
  let nb := (b.map (fun kv => kv.2 * kv.2)).sum
  if na = 0 ∨ nb = 0 then 0 else dot / (sqrtQ na * sqrtQ nb)

/-- The per-sentence record built by the first `map` of `generateSummary`. -/
structure Scored where
  sentence : String
  freqScore : ℚ
  vec : List (String × ℚ)
  originalIndex : ℕ

/-- The per-sentence record carrying the combined score. -/
structure Final where
  sentence : String
  score : ℚ
  originalIndex : ℕ

/-- The comparator `(a, b) => b.score - a.score` of the stable JS sort:
descending by score, ties keeping input order. -/
def byScoreDesc (a b : Final) : Prop := b.score ≤ a.score

instance : DecidableRel byScoreDesc :=
  fun a b => inferInstanceAs (Decidable (b.score ≤ a.score))

instance : IsTotal Final byScoreDesc := ⟨fun a b => le_total b.score a.score⟩

instance : IsTrans Final byScoreDesc := ⟨fun _ _ _ h h' => le_trans h' h⟩

/-- The comparator `(a, b) => a.originalIndex - b.originalIndex`: ascending by
original position. -/
def byIdx (a b : Final) : Prop := a.originalIndex ≤ b.originalIndex

instance : DecidableRel byIdx :=
  fun a b => inferInstanceAs (Decidable (a.originalIndex ≤ b.originalIndex))

instance : IsTotal Final byIdx := ⟨fun a b => le_total a.originalIndex b.originalIndex⟩

instance : IsTrans Final byIdx := ⟨fun _ _ _ h h' => le_trans h h'⟩

/-- The `scoredSentences` array of `generateSummary`: one record per sentence,
in original order. -/
def scoredSentencesOf (text : String) : List Scored :=
  let sentences := tokenizeSentences text
  let wordFrequency := wordFrequencyFn text
  sentences.enum.map (fun p =>
    { sentence := p.2
      freqScore := calculateSentenceScore p.2 wordFrequency p.1 sentences.length
      vec := sentenceToVector p.2
      originalIndex := p.1 })

/-- The `centrality` of sentence `i`: summed cosine similarity against every
other sentence. -/
def centralityOf (sqrtQ : ℚ → ℚ) (text : String) (i : ℕ) : ℚ :=
  let scoredSentences := scoredSentencesOf text
  match scoredSentences.get? i with
  | none => 0
  | some si =>
    (scoredSentences.enum.map (fun q =>
      if q.1 = i then 0 else cosineSimilarity sqrtQ si.vec q.2.vec)).sum

/-- The `finalScores` array of `generateSummary`: normalized frequency and
centrality blended 55/45. -/
def finalScoresOf (sqrtQ : ℚ → ℚ) (text : String) : List Final :=
  let scoredSentences := scoredSentencesOf text
  let freqScores := scoredSentences.map (fun s => s.freqScore)
  let maxFreq := orQ (listMaxD freqScores) 1
  let minFreq := orQ (listMinD freqScores) 0
  let centVals := (List.range scoredSentences.length).map (centralityOf sqrtQ text)
  let maxCentral := orQ (listMaxD centVals) 1
  let minCentral := orQ (listMinD centVals) 0
  scoredSentences.enum.map (fun q =>
    let normFreq := (q.2.freqScore - minFreq) / orQ (maxFreq - minFreq) 1
    let normCentral := (centralityOf sqrtQ text q.1 - minCentral) / orQ (maxCentral - minCentral) 1
    { sentence := q.2.sentence
      score := (55/100) * normFreq + (45/100) * normCentral
      originalIndex := q.2.originalIndex })

/-- `generateSummary`.  `Date.now()` is modelled by the explicit `now`
argument and `Math.sqrt` by the `sqrtQ` parameter of the centrality step; the
two JS array sorts (stable) are modelled by insertion sort with the matching
total relations. -/
def generateSummary (sqrtQ : ℚ → ℚ) (text : String) (targetSentences : ℕ)
    (now : ℕ) : SummaryInfo :=
  let sentences := tokenizeSentences text
  if sentences.length = 0 then
    { summary := "No content to summarize.", sentences := [], wordCount := 0, generatedAt := now }
  else if sentences.length ≤ targetSentences then
    { summary := String.intercalate "\n" sentences
      sentences := sentences
      wordCount := (tokenizeWords text).length
      generatedAt := now }
  else
    let finalScores := finalScoresOf sqrtQ text
    let top := (List.insertionSort byIdx
        ((List.insertionSort byScoreDesc finalScores).take targetSentences)).map
      (fun s => s.sentence)
    { summary := String.intercalate "\n" top
      sentences := top
      wordCount := (tokenizeWords text).length
      generatedAt := now }

end Summar

/-! ### Filler-word detector (`src/utils/fillerWordRemoval.ts`) -/

namespace Filler

inductive FillerCat
  | discourse
  | verbal
  | verbalTics
  | phrase
deriving DecidableEq

/-- `FILLER_WORDS.verbal`. -/
def VERBAL_WORDS : List String :=
  ["um", "uh", "err", "erm", "hmm", "huh", "ah", "oh", "aah", "ooh", "eeh", "agh"]

/-- `FILLER_WORDS.discourse`. -/
def DISCOURSE_WORDS : List String :=
  ["like", "you know", "i mean", "basically", "literally", "actually",
   "honestly", "i think", "i feel", "sort of", "kind of", "so", "well",
   "right", "okay"]

/-- `FILLER_WORDS.verbal_tics`. -/
def VERBAL_TICS_WORDS : List String :=
  ["anyway", "anyhow", "at the end of the day", "for sure", "you know what",
   "for whatever reason", "in terms of"]

/-- `FILLER_WORDS.phrase`. -/
def PHRASE_WORDS : List String :=
  ["you know", "i mean", "sort of", "kind of", "i think", "i feel",
   "at the end of the day", "you know what", "you know what i mean",
   "for sure", "for whatever reason"]

/-- `FILLER_WORDS_SET`: the union of the four category lists. -/
def FILLER_WORDS_SET : List String :=
  VERBAL_WORDS ++ DISCOURSE_WORDS ++ VERBAL_TICS_WORDS ++ PHRASE_WORDS

/-- `FILLER_WORDS_CATEGORY`: the build loop writes the categories in the
order verbal, discourse, verbal-tics, phrase, later writes overwriting
earlier ones, so the lookup checks the lists in reverse build order. -/
def fillerCategory (w : String) : FillerCat :=
  if PHRASE_WORDS.contains w then FillerCat.phrase
  else if VERBAL_TICS_WORDS.contains w then FillerCat.verbalTics
  else if DISCOURSE_WORDS.contains w then FillerCat.discourse
  else FillerCat.verbal

structure FillerWord where
  word : String
  startIndex : ℕ
  endIndex : ℕ
  category : FillerCat
deriving DecidableEq

structure Segment where
  text : String
  isFillerWord : Bool
  category : Option FillerCat
deriving DecidableEq

structure FillerWordAnalysis where
  originalText : String
  cleanedText : String
  highlightedText : List Segment
  fillerWords : List FillerWord
  totalFillerWords : ℕ
  fillerWordPercentage : ℚ
  mostCommonFiller : Option String
  fillerWordFrequency : List (String × ℕ)
  averageFillerWordsPerSentence : ℚ
deriving DecidableEq

/-- The character class `[a-zA-Z'-]` of `tokenizeWithPositions`. -/
def isTokenChar (c : Char) : Bool :=
  decide (('a' ≤ c ∧ c ≤ 'z') ∨ ('A' ≤ c ∧ c ≤ 'Z') ∨ c = '\'' ∨ c = '-')

/-- `tokenizeWithPositions`: words as maximal `[a-zA-Z'-]` runs with their
start/end offsets. -/
def twpGo : List Char → ℕ → List Char → ℕ → List (String × ℕ × ℕ)
  | [], i, cur, ws => if cur.isEmpty then [] else [(String.mk cur.reverse, ws, i)]
  | c :: cs, i, cur, ws =>
    if isTokenChar c then
      if cur.isEmpty then twpGo cs (i + 1) [c] i
      else twpGo cs (i + 1) (c :: cur) ws
    else
      if cur.isEmpty then twpGo cs (i + 1) [] ws
      else (String.mk cur.reverse, ws, i) :: twpGo cs (i + 1) [] ws

def tokenizeWithPositions (text : String) : List (String × ℕ × ℕ) :=
  twpGo text.data 0 [] 0

/-- `isFillerWord`. -/
def isFillerWord (word : String) : Bool :=
  FILLER_WORDS_SET.contains (trimJS (lowerJS word))

/-- The explicit multi-word `phrasePatterns` list of `extractFillerPhrases`. -/
def phrasePatterns : List String :=
  ["you know what i mean", "you know what", "i think that", "i feel like",
   "i mean like", "sort of like", "kind of like", "at the end of the day",
   "for whatever reason"]

/-- `extractFillerPhrases`: all non-overlapping occurrences of each phrase in
the lowercased text, in pattern order. -/
def extractFillerPhrases (text : String) : List FillerWord :=
  phrasePatterns.flatMap (fun phrase =>
    (findOcc phrase.data (lowerJS text).data).map (fun idx =>
      { word := subStr text idx (idx + phrase.length)
        startIndex := idx
        endIndex := idx + phrase.length
        category := FillerCat.phrase }))

/-- `extractSingleWordFillers`. -/
def extractSingleWordFillers (text : String) : List FillerWord :=
  (tokenizeWithPositions text).filterMap (fun t =>
    if isFillerWord t.1 then
      some { word := t.1
             startIndex := t.2.1
             endIndex := t.2.2
             category := fillerCategory (lowerJS t.1) }
    else none)

/-- The comparator `(a, b) => a.startIndex - b.startIndex` of the stable sort
merging phrase and single-word matches. -/
def byStart (a b : FillerWord) : Prop := a.startIndex ≤ b.startIndex

instance : DecidableRel byStart :=
  fun a b => inferInstanceAs (Decidable (a.startIndex ≤ b.startIndex))

instance : IsTotal FillerWord byStart := ⟨fun a b => le_total a.startIndex b.startIndex⟩

instance : IsTrans FillerWord byStart := ⟨fun _ _ _ h h' => le_trans h h'⟩

/-- `s.substring(0, start) + ' ' + s.substring(stop)`. -/
def spliceSpace (s : String) (start stop : ℕ) : String :=
  String.mk (s.data.take start ++ ' ' :: s.data.drop stop)

/-- `replace(/\s+/g, ' ')`: collapse every whitespace run to one space.  The
fold state carries the output so far (reversed) and whether the scanner is
inside a whitespace run. -/
def collapseWs (s : String) : String :=
  String.mk ((s.data.foldl
    (fun (acc : List Char × Bool) c =>
      if isSpaceJS c then
        if acc.2 then acc else (' ' :: acc.1, true)
      else (c :: acc.1, false))
    ([], false)).1.reverse)

/-- `analyzeFillerWords`. -/
def analyzeFillerWords (text : String) : FillerWordAnalysis :=
  if text = "" ∨ (trimJS text).length = 0 then
    { originalText := text
      cleanedText := text
      highlightedText := []
      fillerWords := []
      totalFillerWords := 0
      fillerWordPercentage := 0
      mostCommonFiller := none
      fillerWordFrequency := []
      averageFillerWordsPerSentence := 0 }
  else
    let phraseFillers := extractFillerPhrases text
    let singleFillers := extractSingleWordFillers text
    let allFillers := List.insertionSort byStart (phraseFillers ++ singleFillers)
    let mergedFillers := allFillers.foldl (fun kept f =>
      if kept.any (fun ex =>
          decide (ex.startIndex ≤ f.startIndex) && decide (f.startIndex < ex.endIndex)) then
        kept
      else kept ++ [f]) []
    let cleaned0 := mergedFillers.reverse.foldl
      (fun s f => spliceSpace s f.startIndex f.endIndex) text
    let cleanedText := trimJS (collapseWs cleaned0)
    let hl := mergedFillers.foldl (fun (acc : List Segment × ℕ) f =>
      let segs :=
        if acc.2 < f.startIndex then
          acc.1 ++ [{ text := subStr text acc.2 f.startIndex, isFillerWord := false,
                      category := none }]
        else acc.1
      (segs ++ [{ text := subStr text f.startIndex f.endIndex, isFillerWord := true,
                  category := some f.category }],
       f.endIndex)) ([], 0)
    let highlightedText :=
      if hl.2 < text.length then
        hl.1 ++ [{ text := subStr text hl.2 text.length, isFillerWord := false, category := none }]
      else hl.1
    let lowWords := mergedFillers.map (fun f => trimJS (lowerJS f.word))
    let fillerWordFrequency := (firstDedup lowWords).map (fun w => (w, lowWords.count w))
    let mostCommonFiller := (fillerWordFrequency.foldl
      (fun (acc : Option String × ℕ) kv => if kv.2 > acc.2 then (some kv.1, kv.2) else acc)
      (none, 0)).1
    let totalWords := (splitRuns isSpaceJS text).length
    let fillerWordPercentage :=
      if totalWords > 0 then (mergedFillers.length : ℚ) / (totalWords : ℚ) * 100 else 0
    let sentences := (splitRuns (fun c => decide (c = '.' ∨ c = '!' ∨ c = '?')) text).filter
      (fun s => (trimJS s).length > 0)
    let averageFillerWordsPerSentence :=
      if sentences.length > 0 then (mergedFillers.length : ℚ) / (sentences.length : ℚ) else 0
    { originalText := text
      cleanedText := cleanedText
      highlightedText := highlightedText
      fillerWords := mergedFillers
      totalFillerWords := mergedFillers.length
      fillerWordPercentage := round2 fillerWordPercentage
      mostCommonFiller := mostCommonFiller
      fillerWordFrequency := fillerWordFrequency
      averageFillerWordsPerSentence := round2 averageFillerWordsPerSentence }

/-- `removeFillerWords`. -/
def removeFillerWords (text : String) : String :=
  (analyzeFillerWords text).cleanedText

end Filler

/-! ### The note record (`src/types/note.ts`), restricted to the fields the
analytics core reads (the remaining audio / diarization metadata is never
consulted by the analyzers under verification). -/

structure Note where
  id : String
  title : String
  audioUri : String
  transcription : String
  duration : ℕ
  createdAt : ℕ
  isFavorite : Option Bool
  tags : Option (List String)
deriving DecidableEq

/-! ### Vocabulary insights (`src/utils/vocabularyInsights.ts`) -/

namespace Vocab

/-- The stop-word set of the vocabulary analyzer. -/
def STOP_WORDS : List String :=
  ["a", "about", "above", "after", "again", "against", "all", "am", "an", "and",
   "any", "are", "as", "at", "be", "because", "been", "before", "being", "below",
   "between", "both", "but", "by", "can", "could", "did", "do", "does", "doing",
   "down", "during", "each", "few", "for", "from", "further", "had", "has", "have",
   "having", "he", "her", "here", "hers", "herself", "him", "himself", "his", "how",
   "i", "if", "in", "into", "is", "it", "its", "itself", "just", "me", "might",
   "more", "most", "must", "my", "myself", "no", "nor", "not", "of", "off", "on",
   "once", "only", "or", "other", "our", "ours", "ourselves", "out", "over", "own",
   "same", "should", "so", "some", "such", "than", "that", "the", "their", "theirs",
   "them", "themselves", "then", "there", "these", "they", "this", "those", "through",
   "to", "too", "under", "until", "up", "very", "was", "we", "were", "what", "when",
   "where", "which", "while", "who", "whom", "why", "will", "with", "you", "your"]

structure VocabularyInsights where
  totalWords : ℕ
  uniqueWords : ℕ
  uniqueMeaningfulWords : ℕ
  vocabularyRichness : ℚ
  averageSentenceLength : ℚ
  averageWordLength : ℚ
  totalSentences : ℕ
  mostCommonWords : List (String × ℕ)
  rareWords : List (String × ℕ)
  readabilityIndex : ℚ
  longestWord : String
  shortestWord : String
  analysisDate : ℕ
  notesAnalyzed : ℕ
deriving DecidableEq

/-- `tokenizeWords`: lowercase, split on whitespace, strip characters outside
`[\w'-]` from each piece, drop empties. -/
def tokenizeWords (text : String) : List String :=
  ((splitRuns isSpaceJS (lowerJS text)).map (fun w =>
    String.mk (w.data.filter (fun c => isWordCharJS c || c = '\'' || c = '-')))).filter
    (fun w => w.length > 0)

/-- `tokenizeSentences`: split on `/[.!?]+/`, trim, drop empties. -/
def tokenizeSentences (text : String) : List String :=
  ((splitRuns (fun c => decide (c = '.' ∨ c = '!' ∨ c = '?')) text).map trimJS).filter
    (fun s => s.length > 0)

/-- `estimateSyllables`: vowel-group count with the silent-`e` and `-le`
corrections, at least 1. -/
def estimateSyllables (word : String) : ℤ :=
  let lowerWord := lowerJS word
  let count := (lowerWord.data.foldl
    (fun (acc : ℤ × Bool) c =>
      let isVowel := "aeiouy".data.contains c
      (if isVowel && !acc.2 then acc.1 + 1 else acc.1, isVowel))
    (0, false)).1
  let count := if endsWithJS lowerWord "e" then count - 1 else count
  let count := if endsWithJS lowerWord "le" && decide (lowerWord.length > 2) then count + 1 else count
  max 1 count

/-- `estimateAverageSyllables`. -/
def estimateAverageSyllables (words : List String) : ℚ :=
  ((words.map estimateSyllables).sum : ℤ) / ((max words.length 1 : ℕ) : ℚ)

/-- `getEmptyInsights`. -/
def getEmptyInsights (now : ℕ) : VocabularyInsights :=
  { totalWords := 0, uniqueWords := 0, uniqueMeaningfulWords := 0
    vocabularyRichness := 0, averageSentenceLength := 0, averageWordLength := 0
    totalSentences := 0, mostCommonWords := [], rareWords := []
    readabilityIndex := 0, longestWord := "", shortestWord := ""
    analysisDate := now, notesAnalyzed := 0 }

/-- The comparator `(a, b) => b[1] - a[1]` on frequency entries. -/
def byFreqDesc (a b : String × ℕ) : Prop := b.2 ≤ a.2

instance : DecidableRel byFreqDesc := fun a b => inferInstanceAs (Decidable (b.2 ≤ a.2))

instance : IsTotal (String × ℕ) byFreqDesc := ⟨fun a b => le_total b.2 a.2⟩

instance : IsTrans (String × ℕ) byFreqDesc := ⟨fun _ _ _ h h' => le_trans h' h⟩

/-- The comparator `(a, b) => b[0].length - a[0].length` on frequency entries. -/
def byLenDesc (a b : String × ℕ) : Prop := b.1.length ≤ a.1.length

instance : DecidableRel byLenDesc := fun a b => inferInstanceAs (Decidable (b.1.length ≤ a.1.length))

instance : IsTotal (String × ℕ) byLenDesc := ⟨fun a b => le_total b.1.length a.1.length⟩

instance : IsTrans (String × ℕ) byLenDesc := ⟨fun _ _ _ h h' => le_trans h' h⟩

/-- `analyzeVocabulary`.  `Date.now()` is modelled by the explicit `now`
argument.  The frequency `Map` (which only receives words longer than 2
characters) is modelled as the association list of its entries in
first-insertion order; the `try`/`catch` wrapper is dropped because the pure
model cannot throw. -/
def analyzeVocabulary (notes : List Note) (now : ℕ) : VocabularyInsights :=
  if notes.length = 0 then getEmptyInsights now
  else
    let allText := String.intercalate " " (notes.map (fun n => n.transcription))
    let words := tokenizeWords allText
    let sentences := tokenizeSentences allText
    if words.length = 0 then getEmptyInsights now
    else
      let longWords := words.filter (fun w => decide (w.length > 2))
      let wordFrequency : List (String × ℕ) :=
        (firstDedup longWords).map (fun w => (w, longWords.count w))
      let sortedWords := List.insertionSort byFreqDesc wordFrequency
      let mostCommon := sortedWords.take 10
      let rareWords := (sortedWords.filter (fun kv => decide (kv.2 ≤ 2))).take 10
      let uniqueWords := wordFrequency.length
      let totalWords := words.length
      let vocabularyRichness : ℚ := (uniqueWords : ℚ) / (totalWords : ℚ)
      let averageSentenceLength : ℚ := (totalWords : ℚ) / ((max sentences.length 1 : ℕ) : ℚ)
      let averageWordLength : ℚ :=
        ((words.map (fun w => w.length)).sum : ℚ) / (totalWords : ℚ)
      let sortedByLength := List.insertionSort byLenDesc sortedWords
      let longestWord := ((sortedByLength.head?).map (fun kv => kv.1)).getD ""
      let shortestWord := ((sortedByLength.getLast?).map (fun kv => kv.1)).getD ""
      let avgSyllablesPerWord := estimateAverageSyllables words
      let readabilityIndex :=
        max 0 ((39/100) * averageSentenceLength + (118/10) * avgSyllablesPerWord - 1559/100)
      { totalWords := totalWords
        uniqueWords := uniqueWords
        uniqueMeaningfulWords :=
          ((wordFrequency.map (fun kv => kv.1)).filter (fun w => !STOP_WORDS.contains w)).length
        vocabularyRichness := round3 vocabularyRichness
        averageSentenceLength := round1 averageSentenceLength
        averageWordLength := round1 averageWordLength
        totalSentences := sentences.length
        mostCommonWords := mostCommon
        rareWords := rareWords
        readabilityIndex := round1 readabilityIndex
        longestWord := longestWord
        shortestWord := shortestWord
        analysisDate := now
        notesAnalyzed := notes.length }

end Vocab

/-! ### Semantic search engine (`src/unnamed/part_002`) -/

namespace Search

/-- `SEMANTIC_RELATIONSHIPS`: the fixed concept graph, key order preserved. -/
def SEMANTIC_RELATIONSHIPS : List (String × List String) :=
  [("budget", ["finance", "money", "cost", "expense", "spending", "financial", "invest", "capital", "funds"]),
   ("finance", ["budget", "money", "cost", "expense", "spending", "invest", "capital", "profit", "revenue"]),
   ("expense", ["budget", "cost", "spending", "money", "finance", "bill", "payment", "invoice"]),
   ("revenue", ["finance", "money", "income", "profit", "sales", "business", "earnings"]),
   ("profit", ["revenue", "finance", "business", "income", "success", "earnings"]),
   ("cost", ["expense", "budget", "money", "spending", "finance", "price", "payment"]),
   ("money", ["budget", "finance", "expense", "cost", "spending", "payment", "income", "wealth"]),
   ("salary", ["payment", "income", "money", "compensation", "wage", "earnings"]),
   ("invoice", ["payment", "bill", "expense", "money", "cost"]),
   ("meeting", ["discussion", "conversation", "talk", "conference", "presentation", "call", "gathering", "sync"]),
   ("discussion", ["meeting", "conversation", "talk", "debate", "topic", "dialogue"]),
   ("presentation", ["meeting", "demo", "talk", "pitch", "showcase", "show"]),
   ("call", ["meeting", "conversation", "discussion", "sync", "conference", "communication"]),
   ("sync", ["meeting", "call", "check-in", "update", "discussion", "sync-up"]),
   ("project", ["task", "work", "delivery", "deadline", "milestone", "objective", "goal"]),
   ("task", ["project", "work", "assignment", "responsibility", "to-do", "item"]),
   ("deadline", ["project", "timeline", "date", "schedule", "due", "time"]),
   ("milestone", ["project", "achievement", "goal", "target", "checkpoint"]),
   ("goal", ["objective", "target", "aim", "purpose", "milestone", "outcome"]),
   ("client", ["customer", "customer-name", "account", "business", "contract", "relationship"]),
   ("customer", ["client", "user", "account", "buyer", "business"]),
   ("technology", ["tech", "software", "development", "code", "technical", "system", "infrastructure"]),
   ("development", ["technology", "coding", "engineering", "software", "building", "creation"]),
   ("bug", ["issue", "problem", "error", "fix", "development", "technical"]),
   ("feature", ["development", "functionality", "capability", "enhancement", "build"]),
   ("marketing", ["campaign", "promotion", "advertising", "brand", "strategy", "outreach", "engagement"]),
   ("campaign", ["marketing", "promotion", "strategy", "initiative", "launch", "effort"]),
   ("sales", ["revenue", "business", "customer", "closing", "deal", "opportunity", "pipeline"]),
   ("deal", ["sales", "business", "closing", "opportunity", "contract", "agreement"]),
   ("important", ["critical", "urgent", "priority", "key", "essential", "significant"]),
   ("urgent", ["important", "critical", "priority", "rush", "emergency", "immediate"]),
   ("follow-up", ["action", "task", "to-do", "reminder", "next-step"]),
   ("decision", ["choice", "outcome", "result", "conclusion", "direction"]),
   ("today", ["date", "current", "now", "immediate", "schedule"]),
   ("tomorrow", ["date", "schedule", "upcoming", "future"]),
   ("week", ["time", "schedule", "duration", "period"]),
   ("month", ["time", "quarter", "period", "duration", "schedule"]),
   ("complete", ["done", "finished", "closed", "resolved", "success"]),
   ("done", ["complete", "finished", "success", "achieved"]),
   ("pending", ["waiting", "todo", "upcoming", "scheduled", "in-progress"]),
   ("in-progress", ["active", "ongoing", "working", "status", "pending"])]

inductive MatchType
  | exact
  | keyword
  | semantic
deriving DecidableEq

structure SemanticSearchResult where
  note : Note
  relevanceScore : ℚ
  matchType : MatchType
  matchedTerms : List String
  explanation : String
deriving DecidableEq

/-- `tokenizeQuery`: lowercase, delete characters outside `[\w\s-]`, split on
whitespace, keep tokens longer than 2 characters. -/
def tokenizeQuery (query : String) : List String :=
  (splitRuns isSpaceJS
      (String.mk ((lowerJS query).data.filter
        (fun c => isWordCharJS c || isSpaceJS c || c = '-')))).filter
    (fun t => t.length > 2)

/-- `getSemanticExpansions`: the token itself, its forward neighbours, and
every key whose neighbour list contains the token (reverse lookup), in JS
`Set` insertion order. -/
def getSemanticExpansions (token : String) : List String :=
  firstDedup
    (token :: ((alookup SEMANTIC_RELATIONSHIPS token).getD [] ++
      (SEMANTIC_RELATIONSHIPS.filter (fun kv => kv.2.contains token)).map (fun kv => kv.1)))

/-- `calculateSimilarity`: maximum over the expansions of the whole-word
(1.0) / substring (0.7) / partial-token (0.4) checks. -/
def calculateSimilarity (text token : String) : ℚ :=
  let textLower := lowerJS text
  let tokenExpansions := getSemanticExpansions token
  tokenExpansions.foldl (fun maxScore expandedToken =>
    if containsSub textLower (" " ++ expandedToken ++ " ") ||
        startsWithJS textLower (expandedToken ++ " ") ||
        endsWithJS textLower (" " ++ expandedToken) ||
        decide (textLower = expandedToken) then
      max maxScore 1
    else if containsSub textLower expandedToken then
      max maxScore (7/10)
    else if containsSub expandedToken token || containsSub token expandedToken then
      max maxScore (4/10)
    else maxScore) 0

/-- `matchedTerms.add(token)`: JS `Set` insertion keeping first-insertion
order. -/
def addTerm (ts : List String) (t : String) : List String :=
  if ts.contains t then ts else ts ++ [t]

/-- The per-note scoring state of `semanticSearch`: running total, matched
term set and match-type label. -/
structure ScoreState where
  total : ℚ
  terms : List String
  mt : MatchType

/-- The title loop body: note the `else if (score >= 0.7)` branch overwrites
the label without checking the current one, exactly as in the source. -/
def titleStep (title : String) (st : ScoreState) (token : String) : ScoreState :=
  let score := calculateSimilarity title token
  if score > 0 then
    { total := st.total + score
      terms := addTerm st.terms token
      mt := if score = 1 then MatchType.exact
            else if score ≥ 7/10 then MatchType.keyword
            else st.mt }
  else st

/-- The transcription loop body (0.8 weight, guarded label escalation). -/
def transcriptionStep (transcription : String) (st : ScoreState) (token : String) : ScoreState :=
  let score := calculateSimilarity transcription token
  if score > 0 then
    { total := st.total + score * (8/10)
      terms := addTerm st.terms token
      mt := if score = 1 ∧ st.mt ≠ MatchType.exact then MatchType.exact
            else if score ≥ 7/10 ∧ st.mt = MatchType.semantic then MatchType.keyword
            else st.mt }
  else st

/-- The tag loop body (1.2 weight, only exact matches change the label). -/
def tagStep (tag : String) (st : ScoreState) (token : String) : ScoreState :=
  let score := calculateSimilarity tag token
  if score > 0 then
    { total := st.total + score * (12/10)
      terms := addTerm st.terms token
      mt := if score = 1 then MatchType.exact else st.mt }
  else st

/-- `generateExplanation`. -/
def generateExplanation (matchedTerms : List String) : String :=
  if matchedTerms.isEmpty then "Semantic match"
  else "Matched: " ++ String.intercalate ", " (matchedTerms.take 2)

/-- The comparator `(a, b) => b.relevanceScore - a.relevanceScore`. -/
def byRelevanceDesc (a b : SemanticSearchResult) : Prop :=
  b.relevanceScore ≤ a.relevanceScore

instance : DecidableRel byRelevanceDesc :=
  fun a b => inferInstanceAs (Decidable (b.relevanceScore ≤ a.relevanceScore))

instance : IsTotal SemanticSearchResult byRelevanceDesc :=
  ⟨fun a b => le_total b.relevanceScore a.relevanceScore⟩

instance : IsTrans SemanticSearchResult byRelevanceDesc :=
  ⟨fun _ _ _ h h' => le_trans h' h⟩

/-- The per-note body of `semanticSearch`: score title, transcription and
tags, keep the note when the normalized relevance reaches the threshold.
`if (note.title)` and `if (note.tags)` are the JS truthiness tests: an empty
title string is falsy, an absent tags array is falsy (an empty array is
truthy). -/
def scoreNote (tokens : List String) (threshold : ℚ) (note : Note) :
    Option SemanticSearchResult :=
  let st0 : ScoreState := { total := 0, terms := [], mt := MatchType.semantic }
  let st1 := if note.title ≠ "" then tokens.foldl (titleStep note.title) st0 else st0
  let st2 := tokens.foldl (transcriptionStep note.transcription) st1
  let st3 :=
    match note.tags with
    | some tags => tags.foldl (fun st tag => tokens.foldl (tagStep tag) st) st2
    | none => st2
  let relevanceScore := if tokens.length > 0 then st3.total / (tokens.length : ℚ) else 0
  if relevanceScore ≥ threshold then
    some { note := note
           relevanceScore := relevanceScore
           matchType := st3.mt
           matchedTerms := st3.terms
           explanation := generateExplanation st3.terms }
  else none

/-- `semanticSearch` (default threshold 0.3 at the call sites). -/
def semanticSearch (notes : List Note) (query : String) (threshold : ℚ) :
    List SemanticSearchResult :=
  if trimJS query = "" then []
  else
    let tokens := tokenizeQuery query
    List.insertionSort byRelevanceDesc (notes.filterMap (scoreNote tokens threshold))

end Search

/-! ### Auto-tagger (`src/unnamed/part_004`) -/

namespace AutoTag

/-- `COMMON_TOPICS`, key order preserved. -/
def COMMON_TOPICS : List (String × List String) :=
  [("marketing", ["marketing", "campaign", "brand", "promotion", "seo", "content", "audience"]),
   ("finance", ["budget", "cost", "expense", "revenue", "financial", "money", "payment", "invoice"]),
   ("meeting", ["meeting", "discuss", "decision", "agenda", "action item", "follow-up"]),
   ("project", ["project", "deadline", "task", "milestone", "deliverable", "scope"]),
   ("client", ["client", "customer", "customer", "relationship", "feedback", "requirement"]),
   ("technology", ["tech", "software", "development", "api", "database", "server", "cloud"]),
   ("sales", ["sale", "deal", "lead", "pipeline", "opportunity", "close", "quota"]),
   ("hr", ["hiring", "recruitment", "performance", "employee", "team", "culture"])]

/-- The tagger's stop-word set. -/
def STOP_WORDS : List String :=
  ["the", "a", "an", "and", "or", "but", "in", "on", "at", "to", "for", "of", "with", "by",
   "from", "is", "am", "are", "was", "were", "be", "been", "being", "have", "has", "had",
   "do", "does", "did", "will", "would", "should", "could", "may", "might", "can", "must",
   "it", "this", "that", "these", "those", "i", "you", "he", "she", "we", "they"]

/-- `word.replace(/[^\w]/g, '')`. -/
def cleanWordJS (w : String) : String :=
  String.mk (w.data.filter isWordCharJS)

/-- `w[0] === w[0].toUpperCase()` on a nonempty cleaned word: the first
character is unchanged by upper-casing (true for capitals, digits and
underscore, false for lower-case letters). -/
def capHead (w : String) : Bool :=
  match w.data with
  | [] => false
  | c :: _ => decide (c.toUpper = c)

/-- Word-boundary (`\b`) test between two optional adjacent characters:
exactly one side is a `\w` character. -/
def boundaryB (left right : Option Char) : Bool :=
  (match left with | some c => isWordCharJS c | none => false) ≠
    (match right with | some c => isWordCharJS c | none => false)

/-- `new RegExp("\\b" + kw + "\\b").test(text)`: some occurrence of `kw` with
word boundaries on both sides. -/
def containsWB (text kw : String) : Bool :=
  go none text.data
where
  go : Option Char → List Char → Bool
    | _, [] => false
    | prev, c :: cs =>
      (isPre kw.data (c :: cs) && boundaryB prev (some c) &&
        boundaryB (some ((c :: cs).getD (kw.length - 1) c)) (((c :: cs).drop kw.length).head?)) ||
      go (some c) cs

/-- Consume exactly `n` characters satisfying `p`; return the rest. -/
def takeExact (p : Char → Bool) (n : ℕ) (l : List Char) : Option (List Char) :=
  if (l.take n).length = n ∧ (l.take n).all p then some (l.drop n) else none

/-- Consume one slash-or-dash date separator. -/
def trySep : List Char → Option (List Char)
  | c :: t => if c = '/' ∨ c = '-' then some t else none
  | [] => none

/-- The trailing `\b` of the date patterns: end of input or a non-`\w`
character. -/
def boundaryAfter : List Char → Bool
  | [] => true
  | c :: _ => !isWordCharJS c

/-- First successful alternative, in order: the backtracking order of a JS
regex alternation / bounded greedy quantifier. -/
def firstSome {α : Type} (l : List (Option α)) : Option α :=
  (l.filterMap id).head?

/-- Anchored match of the numeric date pattern (one or two digits, a slash or
dash, one or two digits, a slash or dash, two to four digits, then `\b`; the
`\b` before the first digit is checked by the scanner): returns the match
length.  The quantifiers are greedy, so the candidate widths are tried
longest first. -/
def p1At (l : List Char) : Option ℕ :=
  firstSome ([2, 1].map (fun d1 =>
    (takeExact isDigitJS d1 l).bind (fun r1 =>
      (trySep r1).bind (fun r2 =>
        firstSome ([2, 1].map (fun d2 =>
          (takeExact isDigitJS d2 r2).bind (fun r3 =>
            (trySep r3).bind (fun r4 =>
              firstSome ([4, 3, 2].map (fun d3 =>
                (takeExact isDigitJS d3 r4).bind (fun r5 =>
                  if boundaryAfter r5 then some (d1 + 1 + d2 + 1 + d3) else none)))))))))))

/-- The month alternation of the second date pattern, in source order (full
names before abbreviations, as in the JS alternation). -/
def MONTH_ALTS : List String :=
  ["january", "february", "march", "april", "may", "june", "july", "august",
   "september", "october", "november", "december",
   "jan", "feb", "mar", "apr", "may", "jun", "jul", "aug", "sep", "oct", "nov", "dec"]

/-- Anchored match of `/(Month...)\s+\d{1,2}(?:st|nd|rd|th)?\b/i` over the
lowercased text: month alternative in order, a greedy whitespace run, one or
two digits (greedy), an optional ordinal suffix (alternatives in order, then
empty), then `\b`. -/
def p2At (l : List Char) : Option ℕ :=
  firstSome (MONTH_ALTS.map (fun m =>
    if isPre m.data l then
      let r := l.drop m.length
      let wsLen := (r.takeWhile isSpaceJS).length
      if wsLen ≥ 1 then
        let r2 := r.drop wsLen
        firstSome ([2, 1].map (fun nd =>
          (takeExact isDigitJS nd r2).bind (fun r3 =>
            firstSome ((["st", "nd", "rd", "th", ""].map String.data).map (fun suf =>
              if isPre suf r3 && boundaryAfter (r3.drop suf.length) then
                some (m.length + wsLen + nd + suf.length)
              else none)))))
      else none
    else none))

/-- The weekday names of the third date pattern. -/
def WEEKDAYS : List String :=
  ["monday", "tuesday", "wednesday", "thursday", "friday", "saturday", "sunday"]

/-- Anchored match of `/(Monday|...|Sunday)\b/i` over the lowercased text. -/
def p3At (l : List Char) : Option ℕ :=
  firstSome (WEEKDAYS.map (fun w =>
    if isPre w.data l && boundaryAfter (l.drop w.length) then some w.length else none))

/-- The global scan of `text.match(/.../g)` for a pattern with a leading
`\b`: at each position try the anchored matcher (when the boundary holds),
record `(start, length)` and resume after the match.  The fuel argument
(instantiated with the text length, strictly consumed at each step) keeps the
recursion structural. -/
def scanF (matchAt : List Char → Option ℕ) :
    ℕ → Option Char → ℕ → List Char → List (ℕ × ℕ)
  | 0, _, _, _ => []
  | _ + 1, _, _, [] => []
  | fuel + 1, prev, pos, c :: cs =>
    match (if boundaryB prev (some c) then matchAt (c :: cs) else none) with
    | some len =>
      (pos, len) ::
        scanF matchAt fuel (some ((c :: cs).getD (len - 1) c)) (pos + len) (cs.drop (len - 1))
    | none => scanF matchAt fuel (some c) (pos + 1) cs

def scan (matchAt : List Char → Option ℕ) (l : List Char) : List (ℕ × ℕ) :=
  scanF matchAt l.length none 0 l

/-- `extractDates`: the three pattern scans in order, matched slices of the
original text, deduplicated, at most 5. -/
def extractDates (text : String) : List String :=
  let lower := (lowerJS text).data
  let m1 := scan p1At text.data
  let m2 := scan p2At lower
  let m3 := scan p3At lower
  let dates := (m1 ++ m2 ++ m3).map (fun pr => subStr text pr.1 (pr.1 + pr.2))
  (firstDedup dates).take 5

/-- `extractProperNouns`: capitalized cleaned words longer than 2 characters
that are not stop words, deduplicated, at most 5. -/
def extractProperNouns (text : String) : List String :=
  let nouns := (splitRuns isSpaceJS text).filterMap (fun word =>
    let originalWord := cleanWordJS word
    let cleanWord := lowerJS originalWord
    if decide (originalWord.length > 2) && capHead originalWord &&
        !STOP_WORDS.contains cleanWord then
      some originalWord
    else none)
  (firstDedup nouns).take 5

/-- `extractTopics`: a topic label for every topic one of whose keywords
occurs word-bounded in the lowercased text. -/
def extractTopics (text : String) : List String :=
  let textLower := lowerJS text
  COMMON_TOPICS.filterMap (fun tk =>
    if tk.2.any (fun kw => containsWB textLower kw) then some tk.1 else none)

/-- The condition under which a word extends the current capitalized run. -/
def isCapWord (cw : String) : Bool :=
  decide (cw ≠ "") && capHead cw

/-- Emit a finished run when it has at least 2 words and its space-joined
form is longer than 3 characters. -/
def emitRun (cur : List String) : List String :=
  if decide (cur.length > 1) && decide ((String.intercalate " " cur).length > 3) then
    [String.intercalate " " cur]
  else []

/-- The word loop of `extractEntities`: capitalized cleaned words accumulate
into `cur`; a non-capitalized word flushes the run.  A run still open at the
end of the word list is never flushed, exactly as in the source. -/
def entitiesGo : List String → List String → List String
  | [], _ => []
  | w :: ws, cur =>
    let cw := cleanWordJS w
    if isCapWord cw then entitiesGo ws (cur ++ [cw])
    else emitRun cur ++ entitiesGo ws []

/-- `extractEntities`: runs of consecutive capitalized words, deduplicated,
at most 3. -/
def extractEntities (text : String) : List String :=
  (firstDedup (entitiesGo (splitRuns isSpaceJS text) [])).take 3

/-- `generateTags`: topics, then entities, then proper nouns, then dates,
deduplicated, at most 10. -/
def generateTags (transcription : String) : List String :=
  if transcription = "" then []
  else
    let dates := extractDates transcription
    let properNouns := extractProperNouns transcription
    let topics := extractTopics transcription
    let entities := extractEntities transcription
    (firstDedup (topics ++ entities ++ properNouns ++ dates)).take 10

/-- The maximal capitalized runs that are *terminated by a following
non-capitalized word*, written with `List.splitOnP` over the cleaned words:
the chunks between non-capitalized words, the final (unterminated) chunk
dropped.  This is the specification-level description against which the
source's accumulator loop is compared. -/
def terminatedRuns (words : List String) : List (List String) :=
  ((words.map cleanWordJS).splitOnP (fun cw => !isCapWord cw)).dropLast

/-- The entity strings the specification-level description emits. -/
def specEntityList (words : List String) : List String :=
  (terminatedRuns words).flatMap emitRun

end AutoTag

/-! ### Auxiliary definitions used by the theorems -/

/-- An arbitrary instantiation of the abstracted `Math.sqrt` parameter, used
when a closed statement needs a concrete summarizer; the summarizer theorems
hold for every such function. -/
def anySqrt : ℚ → ℚ := fun q => q

/-- The timestamp-free part of a sentiment analysis result. -/
def Sentiment.SentimentAnalysis.core (a : Sentiment.SentimentAnalysis) :
    Sentiment.SentimentScore × Sentiment.SLabel × ℚ × List Sentiment.SentSentence ×
      String × List Sentiment.KeyPhrase :=
  (a.overall, a.sentiment, a.confidence, a.sentences, a.emotionalTone, a.keyPhrases)

/-- The timestamp-free part of a summary. -/
def Summar.SummaryInfo.core (s : Summar.SummaryInfo) : String × List String × ℕ :=
  (s.summary, s.sentences, s.wordCount)

/-- The timestamp-free part of a vocabulary analysis. -/
def Vocab.VocabularyInsights.core (v : Vocab.VocabularyInsights) :
    ℕ × ℕ × ℕ × ℚ × ℚ × ℚ × ℕ × List (String × ℕ) × List (String × ℕ) × ℚ ×
      String × String × ℕ :=
  (v.totalWords, v.uniqueWords, v.uniqueMeaningfulWords, v.vocabularyRichness,
   v.averageSentenceLength, v.averageWordLength, v.totalSentences,
   v.mostCommonWords, v.rareWords, v.readabilityIndex, v.longestWord,
   v.shortestWord, v.notesAnalyzed)

/-- A note whose transcription contains the word "finance". -/
def noteFinanceText : Note :=
  { id := "a", title := "", audioUri := "", transcription := "the finance report",
    duration := 0, createdAt := 0, isFavorite := none, tags := none }

/-- A note tagged "budget". -/
def noteBudgetTag : Note :=
  { id := "b", title := "", audioUri := "", transcription := "",
    duration := 0, createdAt := 0, isFavorite := none, tags := some ["budget"] }

/-- A note titled "budget plan". -/
def noteBudgetPlan : Note :=
  { id := "c", title := "budget plan", audioUri := "", transcription := "",
    duration := 0, createdAt := 0, isFavorite := none, tags := none }

/-- A note whose transcription has two distinct words of length 2. -/
def noteAnOx : Note :=
  { id := "d", title := "", audioUri := "", transcription := "an ox",
    duration := 0, createdAt := 0, isFavorite := none, tags := none }

/-- A note whose transcription has two distinct words of length 3. -/
def noteCatDog : Note :=
  { id := "e", title := "", audioUri := "", transcription := "cat dog",
    duration := 0, createdAt := 0, isFavorite := none, tags := none }

/-! ### Generic lemmas about the embedding primitives -/

theorem mem_firstDedup {α : Type} [DecidableEq α] {x : α} :
    ∀ {l : List α}, x ∈ firstDedup l ↔ x ∈ l
  | [] => Iff.rfl
  | a :: as => by
    by_cases hx : x = a
    · subst hx
      simp [firstDedup]
    · simp only [firstDedup, List.mem_cons, List.mem_filter, hx, false_or]
      rw [← mem_firstDedup (l := as)]
      simp [hx]

theorem firstDedup_eq_self {α : Type} [DecidableEq α] :
    ∀ {l : List α}, l.Nodup → firstDedup l = l
  | [], _ => rfl
  | a :: as, h => by
    have htail : as.Nodup := (List.nodup_cons.mp h).2
    have hna : a ∉ as := (List.nodup_cons.mp h).1
    have hrec := firstDedup_eq_self htail
    simp only [firstDedup, hrec]
    rw [List.filter_eq_self.mpr]
    intro x hx
    simp only [decide_eq_true_eq]
    exact fun hxa => hna (hxa ▸ hx)

theorem length_firstDedup_le {α : Type} [DecidableEq α] :
    ∀ (l : List α), (firstDedup l).length ≤ l.length
  | [] => le_refl _
  | a :: as => by
    simp only [firstDedup, List.length_cons]
    exact Nat.succ_le_succ
      (le_trans (List.length_filter_le _ _) (length_firstDedup_le as))

theorem alookup_mem {β : Type} {w : String} {v : β} :
    ∀ {l : List (String × β)}, alookup l w = some v → (w, v) ∈ l
  | [], h => by simp [alookup] at h
  | (k, u) :: t, h => by
    by_cases hk : w = k
    · subst hk
      simp only [alookup, if_true, eq_self_iff_true, Option.some.injEq] at h
      subst h
      exact List.mem_cons_self _ _
    · simp only [alookup, if_neg hk] at h
      exact List.mem_cons_of_mem _ (alookup_mem h)

theorem alookup_eq_some_of_mem {β : Type} {w : String} {v : β} :
    ∀ {l : List (String × β)}, (l.map Prod.fst).Nodup → (w, v) ∈ l →
      alookup l w = some v
  | [], _, h => by simp at h
  | (k, u) :: t, hnd, h => by
    rcases List.mem_cons.mp h with h1 | h1
    · rw [Prod.mk.injEq] at h1
      simp [alookup, h1.1, h1.2]
    · have hk : w ≠ k := by
        intro hwk
        subst hwk
        have : w ∈ t.map Prod.fst := List.mem_map_of_mem Prod.fst h1
        simp only [List.map_cons, List.nodup_cons] at hnd
        exact hnd.1 this
      simp only [alookup, if_neg hk]
      exact alookup_eq_some_of_mem (by simpa using (List.nodup_cons.mp (by simpa using hnd)).2) h1

/-! ### Claim C10: invariants of `calculateSentiment` -/

theorem positive_table_nonneg : ∀ p ∈ Sentiment.POSITIVE_WORDS, (0 : ℚ) ≤ p.2 := by
  with_unfolding_all decide

theorem negative_table_nonneg : ∀ p ∈ Sentiment.NEGATIVE_WORDS, (0 : ℚ) ≤ p.2 := by
  with_unfolding_all decide

theorem intensifier_table_nonneg : ∀ p ∈ Sentiment.INTENSIFIERS, (0 : ℚ) ≤ p.2 := by
  with_unfolding_all decide

theorem intensify_nonneg (prev : Option String) {s : ℚ} (h : 0 ≤ s) :
    0 ≤ Sentiment.intensify prev s := by
  cases prev with
  | none => exact h
  | some p =>
    cases hm : alookup Sentiment.INTENSIFIERS p with
    | none =>
      simp only [Sentiment.intensify, hm]
      exact h
    | some m =>
      simp only [Sentiment.intensify, hm]
      exact Rat.mul_nonneg h (intensifier_table_nonneg _ (alookup_mem hm))

theorem sentContribution_nonneg (prev : Option String) (w : String) :
    0 ≤ (Sentiment.sentContribution prev w).1 ∧ 0 ≤ (Sentiment.sentContribution prev w).2 := by
  have hhalf : (0 : ℚ) ≤ 1 / 2 := by norm_num
  have hpv0 : 0 ≤ ((alookup Sentiment.POSITIVE_WORDS w).getD 0 : ℚ) := by
    cases h : alookup Sentiment.POSITIVE_WORDS w with
    | none => simp
    | some v => simpa using positive_table_nonneg _ (alookup_mem h)
  have hnv0 : 0 ≤ ((alookup Sentiment.NEGATIVE_WORDS w).getD 0 : ℚ) := by
    cases h : alookup Sentiment.NEGATIVE_WORDS w with
    | none => simp
    | some v => simpa using negative_table_nonneg _ (alookup_mem h)
  unfold Sentiment.sentContribution
  set pv := ((alookup Sentiment.POSITIVE_WORDS w).getD 0 : ℚ) with hpveq
  set nv := ((alookup Sentiment.NEGATIVE_WORDS w).getD 0 : ℚ) with hnveq
  clear_value pv nv
  clear hpveq hnveq
  simp only []
  set s0 : ℚ := if pv ≠ 0 then pv else if nv ≠ 0 then nv else 0 with hs0
  have hs00 : 0 ≤ s0 := by
    rw [hs0]
    split_ifs <;> first | exact hpv0 | exact hnv0 | exact le_refl 0
  have hsc : 0 ≤ Sentiment.intensify prev s0 := intensify_nonneg prev hs00
  set t : ℚ := Sentiment.intensify prev s0 with hteq
  clear_value t
  clear hteq hs0
  split_ifs <;> refine ⟨?_, ?_⟩ <;> dsimp only <;>
    (first
      | exact hsc
      | exact Rat.mul_nonneg hsc hhalf
      | exact le_refl 0)

theorem sentAccum_nonneg (prev : Option String) (ws : List String) :
    0 ≤ (Sentiment.sentAccum prev ws).1 ∧ 0 ≤ (Sentiment.sentAccum prev ws).2 := by
  induction ws generalizing prev with
  | nil => exact ⟨le_refl 0, le_refl 0⟩
  | cons w ws ih =>
    have hc := sentContribution_nonneg prev w
    have hr := ih (some w)
    exact ⟨Rat.add_nonneg hc.1 hr.1, Rat.add_nonneg hc.2 hr.2⟩

/-- Claim C10: for every input text the `SentimentScore` produced by
`calculateSentiment` has `positive`, `negative` and `neutral` in `[0, 1]`,
the three proportions sum to exactly 1, and `compound` lies in `[-1, 1]`. -/
theorem c10_sentiment_score_invariants (text : String) :
    (0 ≤ (Sentiment.calculateSentiment text).positive ∧
      (Sentiment.calculateSentiment text).positive ≤ 1) ∧
      (0 ≤ (Sentiment.calculateSentiment text).negative ∧
        (Sentiment.calculateSentiment text).negative ≤ 1) ∧
      (0 ≤ (Sentiment.calculateSentiment text).neutral ∧
        (Sentiment.calculateSentiment text).neutral ≤ 1) ∧
      (Sentiment.calculateSentiment text).positive +
        (Sentiment.calculateSentiment text).negative +
        (Sentiment.calculateSentiment text).neutral = 1 ∧
      (-1 ≤ (Sentiment.calculateSentiment text).compound ∧
        (Sentiment.calculateSentiment text).compound ≤ 1) := by
  set s := Sentiment.calculateSentiment text with hsdef
  have hacc := sentAccum_nonneg none (Sentiment.tokenizeWords text)
  set p := (Sentiment.sentAccum none (Sentiment.tokenizeWords text)).1 with hp
  set n := (Sentiment.sentAccum none (Sentiment.tokenizeWords text)).2 with hn
  have hp0 : 0 ≤ p := hacc.1
  have hn0 : 0 ≤ n := hacc.2
  have hs : s = { positive := min (if p + n > 0 then p / (p + n) else 0) 1
                  negative := min (if p + n > 0 then n / (p + n) else 0) 1
                  neutral := max (1 - ((if p + n > 0 then p / (p + n) else 0) +
                    (if p + n > 0 then n / (p + n) else 0))) 0
                  compound := max (-1) (min 1 ((p - n) / max (p + n) 1)) } := rfl
  by_cases ht : p + n > 0
  · have hpn : p ≤ p + n := le_add_of_nonneg_right hn0
    have hnn : n ≤ p + n := le_add_of_nonneg_left hp0
    have hdiv : p / (p + n) + n / (p + n) = 1 := by
      field_simp
    have hpdiv : 0 ≤ p / (p + n) := div_nonneg hp0 (le_of_lt ht)
    have hndiv : 0 ≤ n / (p + n) := div_nonneg hn0 (le_of_lt ht)
    have hpdiv1 : p / (p + n) ≤ 1 := (div_le_one ht).mpr hpn
    have hndiv1 : n / (p + n) ≤ 1 := (div_le_one ht).mpr hnn
    rw [hs]
    simp only [if_pos ht]
    constructor
    · exact ⟨le_min hpdiv (by norm_num), min_le_right _ _⟩
    constructor
    · exact ⟨le_min hndiv (by norm_num), min_le_right _ _⟩
    constructor
    · constructor
      · exact le_max_right _ _
      · rw [hdiv]
        norm_num
    constructor
    · rw [min_eq_left hpdiv1, min_eq_left hndiv1, hdiv]
      norm_num
    · constructor
      · exact le_max_left _ _
      · exact max_le (by norm_num) (min_le_left _ _)
  · have hpn0 : p + n = 0 := le_antisymm (not_lt.mp ht) (add_nonneg hp0 hn0)
    rw [hs]
    simp only [if_neg ht]
    norm_num
/-! ### Claim C5: empty and whitespace-only inputs -/

theorem allSpace_of_trim_empty {text : String} (h : trimJS text = "") :
    ∀ c ∈ text.data, isSpaceJS c := by
  have hdata : (((text.data.dropWhile isSpaceJS).reverse.dropWhile isSpaceJS).reverse) = [] := by
    have := congrArg String.data h
    simpa [trimJS] using this
  rw [List.reverse_eq_nil_iff] at hdata
  have hall : ∀ c ∈ (text.data.dropWhile isSpaceJS).reverse, isSpaceJS c :=
    List.dropWhile_eq_nil_iff.mp hdata
  have hall2 : ∀ c ∈ text.data.dropWhile isSpaceJS, isSpaceJS c := by
    intro c hc
    exact hall c (List.mem_reverse.mpr hc)
  have hnil : text.data.dropWhile isSpaceJS = [] := by
    cases hd : text.data.dropWhile isSpaceJS with
    | nil => rfl
    | cons c t =>
      exfalso
      have hpos : 0 < (text.data.dropWhile isSpaceJS).length := by
        rw [hd]
        exact Nat.succ_pos _
      have hnot := List.dropWhile_get_zero_not isSpaceJS text.data hpos
      have hmem : (text.data.dropWhile isSpaceJS).get ⟨0, hpos⟩ ∈
          text.data.dropWhile isSpaceJS := List.get_mem _ _ _
      exact hnot (hall2 _ hmem)
  exact List.dropWhile_eq_nil_iff.mp hnil

theorem trim_of_allSpace {text : String} (h : ∀ c ∈ text.data, isSpaceJS c) :
    trimJS text = "" := by
  have h1 : text.data.dropWhile isSpaceJS = [] := List.dropWhile_eq_nil_iff.mpr h
  simp [trimJS, h1]

/-- One split step on a whitespace character preserves the invariant that all
emitted chunks and the current chunk are whitespace-only. -/
theorem sentSplitStep_inv (st : SplitState) (c : Char) (hc : isSpaceJS c)
    (hdone : ∀ ch ∈ st.done, ∀ x ∈ ch.data, isSpaceJS x)
    (hcur : ∀ x ∈ st.cur, isSpaceJS x) :
    (∀ ch ∈ (sentSplitStep st c).done, ∀ x ∈ ch.data, isSpaceJS x) ∧
      (∀ x ∈ (sentSplitStep st c).cur, isSpaceJS x) := by
  unfold sentSplitStep
  split_ifs with h1 h2 <;> refine ⟨?_, ?_⟩ <;> dsimp only <;>
    try exact hdone
  · exact hcur
  · intro ch hch
    rcases List.mem_cons.mp hch with hch | hch
    · subst hch
      intro x hx
      exact hcur x (List.mem_reverse.mp hx)
    · exact hdone ch hch
  · intro x hx
    exact absurd hx (List.not_mem_nil x)
  · intro x hx
    rcases List.mem_cons.mp hx with hx | hx
    · subst hx
      exact hc
    · exact hcur x hx

/-- The look-behind sentence split of a whitespace-only string produces only
whitespace-only chunks. -/
theorem sentSplit_allSpace (l : List Char) (hl : ∀ c ∈ l, isSpaceJS c) :
    ∀ (st : SplitState), (∀ ch ∈ st.done, ∀ c ∈ ch.data, isSpaceJS c) →
      (∀ c ∈ st.cur, isSpaceJS c) →
      ∀ ch ∈ splitFinish (l.foldl sentSplitStep st), ∀ c ∈ ch.data, isSpaceJS c := by
  induction l with
  | nil =>
    intro st hdone hcur ch hch c hc
    simp only [List.foldl_nil, splitFinish, List.mem_reverse, List.mem_cons] at hch
    rcases hch with hch | hch
    · subst hch
      exact hcur c (List.mem_reverse.mp hc)
    · exact hdone ch hch c hc
  | cons a as ih =>
    intro st hdone hcur
    have ha : isSpaceJS a := hl a (List.mem_cons_self _ _)
    have has : ∀ c ∈ as, isSpaceJS c := fun c hc => hl c (List.mem_cons_of_mem _ hc)
    simp only [List.foldl_cons]
    obtain ⟨h1, h2⟩ := sentSplitStep_inv st a ha hdone hcur
    exact ih has _ h1 h2

theorem tokenizeSentencesSummar_eq_nil {text : String}
    (h : ∀ c ∈ text.data, isSpaceJS c) : Summar.tokenizeSentences text = [] := by
  unfold Summar.tokenizeSentences
  rw [List.filter_eq_nil_iff]
  intro s hs
  simp only [List.mem_map] at hs
  obtain ⟨ch, hch, htrim⟩ := hs
  have hchs : ∀ c ∈ ch.data, isSpaceJS c := by
    have := sentSplit_allSpace text.data h ⟨[], [], false, none⟩
      (by intro ch h1; exact absurd h1 (List.not_mem_nil ch))
      (by intro c h1; exact absurd h1 (List.not_mem_nil c))
    exact this ch hch
  have : trimJS ch = "" := trim_of_allSpace hchs
  rw [← htrim, this]
  simp

/-- Claim C5: on empty or whitespace-only input, the sentiment analyzer, the
filler-word analyzer and the summarizer never fail and return their defined
empty-shape results: sentiment compound 0, label Neutral, confidence 0 and no
sentences; the all-zero filler result with empty collections; the fixed
"No content to summarize." marker with zero word count. -/
theorem c5_empty_input_shapes (text : String) (sq : ℚ → ℚ) (targetSentences now : ℕ)
    (h : trimJS text = "") :
    Sentiment.analyzeSentiment text now =
      { overall := ⟨0, 0, 1, 0⟩
        sentiment := Sentiment.SLabel.Neutral
        confidence := 0
        sentences := []
        emotionalTone := "No content to analyze"
        keyPhrases := []
        analysisDate := now } ∧
    Filler.analyzeFillerWords text =
      { originalText := text
        cleanedText := text
        highlightedText := []
        fillerWords := []
        totalFillerWords := 0
        fillerWordPercentage := 0
        mostCommonFiller := none
        fillerWordFrequency := []
        averageFillerWordsPerSentence := 0 } ∧
    Summar.generateSummary sq text targetSentences now =
      { summary := "No content to summarize."
        sentences := []
        wordCount := 0
        generatedAt := now } := by
  have hcond : text = "" ∨ (trimJS text).length = 0 := Or.inr (by rw [h]; rfl)
  refine ⟨?_, ?_, ?_⟩
  · unfold Sentiment.analyzeSentiment
    rw [if_pos hcond]
  · unfold Filler.analyzeFillerWords
    rw [if_pos hcond]
  · have hts : Summar.tokenizeSentences text = [] :=
      tokenizeSentencesSummar_eq_nil (allSpace_of_trim_empty h)
    unfold Summar.generateSummary
    simp only [hts, List.length_nil, if_pos]

/-- Witness for C5 at the whitespace-only input `" "`. -/
theorem c5_empty_input_shapes_witness :
    trimJS " " = "" ∧
      (Sentiment.analyzeSentiment " " 7).sentiment = Sentiment.SLabel.Neutral ∧
      (Filler.analyzeFillerWords " ").totalFillerWords = 0 ∧
      (Summar.generateSummary anySqrt " " 3 7).summary = "No content to summarize." := by
  have h : trimJS " " = "" := by decide
  have := c5_empty_input_shapes " " anySqrt 3 7 h
  refine ⟨h, ?_, ?_, ?_⟩
  · rw [this.1]
  · rw [this.2.1]
  · rw [this.2.2]
/-! ### Claim C1: the document-level classification of `analyzeSentiment` -/

/-- Claim C1 (code bug): the document-level label does not follow the spec's
classification rule.  At the input `"bad"` the overall scores are
positive 0, negative 1, compound −0.7, for which the rule
(`classifySentiment(compound, positive, negative)`) yields `Negative`; but
`analyzeSentiment` passes the arguments in the order
`(positive, negative, compound)` and returns `Neutral`. -/
theorem c1_overall_label_swapped_args :
    (Sentiment.analyzeSentiment "bad" 0).sentiment = Sentiment.SLabel.Neutral ∧
      Sentiment.calculateSentiment "bad" =
        ⟨0, 1, 0, -(7/10)⟩ ∧
      Sentiment.classifySentiment (Sentiment.calculateSentiment "bad").compound
        (Sentiment.calculateSentiment "bad").positive
        (Sentiment.calculateSentiment "bad").negative = Sentiment.SLabel.Negative := by
  refine ⟨?_, ?_, ?_⟩ <;> with_unfolding_all decide
/-! ### Claim C2: summarizer order preservation -/

/-- A list of (index, value) pairs with strictly increasing indices, each pair
valid for `ss`, projects to a sublist of `ss`. -/
theorem map_snd_sublist_of_mono {α : Type} :
    ∀ (n : ℕ) (P : List (ℕ × α)) (ss : List α), P.length ≤ n →
      P.Pairwise (fun a b => a.1 < b.1) → (∀ p ∈ P, ss[p.1]? = some p.2) →
      List.Sublist (P.map Prod.snd) ss := by
  intro n
  induction n with
  | zero =>
    intro P ss hlen _ _
    have : P = [] := List.eq_nil_of_length_eq_zero (Nat.le_zero.mp hlen)
    subst this
    simp
  | succ n ih =>
    intro P ss hlen hpw hget
    match P with
    | [] => simp
    | (i, s) :: rest =>
      have hi : ss[i]? = some s := hget (i, s) (List.mem_cons_self _ _)
      have hilt : i < ss.length := (List.getElem?_eq_some_iff.mp hi).1
      have hrest_lt : ∀ p ∈ rest, i < p.1 := by
        intro p hp
        exact (List.pairwise_cons.mp hpw).1 p hp
      have h1 : List.Sublist [s] (ss.take (i + 1)) := by
        rw [List.singleton_sublist]
        apply List.getElem?_mem (n := i)
        rw [List.getElem?_take_of_lt (Nat.lt_succ_self i)]
        exact hi
      have hP' : List.Sublist ((rest.map (fun p => (p.1 - (i + 1), p.2))).map Prod.snd)
          (ss.drop (i + 1)) := by
        apply ih
        · rw [List.length_map]
          exact Nat.le_of_succ_le_succ hlen
        · rw [List.pairwise_map]
          apply List.Pairwise.imp_of_mem (l := rest) ?_ (List.pairwise_cons.mp hpw).2
          intro a b ha _ hab
          have := hrest_lt a ha
          dsimp only
          omega
        · intro p hp
          rw [List.mem_map] at hp
          obtain ⟨q, hq, rfl⟩ := hp
          dsimp only
          rw [List.getElem?_drop]
          have hlt := hrest_lt q hq
          have : i + 1 + (q.1 - (i + 1)) = q.1 := by omega
          rw [this]
          exact hget q (List.mem_cons_of_mem _ hq)
      have h2 : List.Sublist (rest.map Prod.snd) (ss.drop (i + 1)) := by
        rw [List.map_map] at hP'
        exact hP'
      have := List.Sublist.append h1 h2
      rw [← List.take_append_drop (i + 1) ss]
      exact this

/-- Every element of `finalScoresOf` carries its own sentence at its original
index: the key fact tying the scored records back to the sentence list. -/
theorem finalScoresOf_val (sq : ℚ → ℚ) (text : String) :
    ∀ x ∈ Summar.finalScoresOf sq text,
      (Summar.tokenizeSentences text)[x.originalIndex]? = some x.sentence := by
  intro x hx
  unfold Summar.finalScoresOf at hx
  rw [List.mem_map] at hx
  obtain ⟨q, hq, rfl⟩ := hx
  have hq2 : q.2 ∈ Summar.scoredSentencesOf text := by
    have := List.mk_mem_enum_iff_getElem?.mp (by
      show (q.1, q.2) ∈ (Summar.scoredSentencesOf text).enum
      simpa using hq)
    exact List.getElem?_mem this
  unfold Summar.scoredSentencesOf at hq2
  rw [List.mem_map] at hq2
  obtain ⟨p, hp, hpq⟩ := hq2
  have hpss : (Summar.tokenizeSentences text)[p.1]? = some p.2 :=
    List.mk_mem_enum_iff_getElem?.mp (by
      show (p.1, p.2) ∈ (Summar.tokenizeSentences text).enum
      simpa using hp)
  show (Summar.tokenizeSentences text)[q.2.originalIndex]? = some q.2.sentence
  rw [← hpq]
  exact hpss

/-- Mapping a function that only reads the second component over an
enumeration is mapping it over the list itself. -/
theorem enum_map_comp_snd {α β γ : Type} (l : List α) (F : ℕ × α → β) (G : β → γ)
    (H : α → γ) (h : ∀ p : ℕ × α, G (F p) = H p.2) :
    (l.enum.map F).map G = l.map H := by
  rw [List.map_map]
  have hFG : G ∘ F = H ∘ Prod.snd := funext h
  rw [hFG, ← List.map_map, List.enum_map_snd]

/-- Mapping a function that recovers the index over an enumeration yields the
index range. -/
theorem enum_map_comp_fst {α β : Type} (l : List α) (F : ℕ × α → β) (G : β → ℕ)
    (h : ∀ p : ℕ × α, G (F p) = p.1) :
    (l.enum.map F).map G = List.range l.length := by
  rw [List.map_map]
  have hFG : G ∘ F = Prod.fst := funext h
  rw [hFG, List.enum_map_fst]

/-- The original indices recorded in `finalScoresOf` are exactly
`0, 1, ..., n-1` in order: one record per sentence, each remembering its
position. -/
theorem finalScoresOf_idx (sq : ℚ → ℚ) (text : String) :
    (Summar.finalScoresOf sq text).map (fun x => x.originalIndex)
      = List.range (Summar.tokenizeSentences text).length := by
  unfold Summar.finalScoresOf
  refine Eq.trans
    (enum_map_comp_snd (Summar.scoredSentencesOf text) _
      (fun x : Summar.Final => x.originalIndex)
      (fun s : Summar.Scored => s.originalIndex) (fun p => rfl)) ?_
  unfold Summar.scoredSentencesOf
  exact enum_map_comp_fst _ _ _ (fun p => rfl)
/-- Generic order preservation of the select-then-resort pipeline: when the
records carry pairwise-distinct original indices, each pointing at its own
sentence in `ss`, taking any `N` records by score and re-sorting by original
index yields a sublist of `ss` of length `min N fs.length`. -/
theorem top_keeps_order (fs : List Summar.Final) (ss : List String) (N : ℕ)
    (hidx : (fs.map (fun x => x.originalIndex)).Nodup)
    (hval : ∀ x ∈ fs, ss[x.originalIndex]? = some x.sentence) :
    List.Sublist
      ((List.insertionSort Summar.byIdx
        ((List.insertionSort Summar.byScoreDesc fs).take N)).map (fun s => s.sentence)) ss ∧
    ((List.insertionSort Summar.byIdx
        ((List.insertionSort Summar.byScoreDesc fs).take N)).map (fun s => s.sentence)).length
      = min N fs.length := by
  set S1 := List.insertionSort Summar.byScoreDesc fs with hS1
  set T := S1.take N with hT
  set L := List.insertionSort Summar.byIdx T with hL
  have hperm1 : S1.Perm fs := List.perm_insertionSort _ fs
  have hsubT : T.Sublist S1 := List.take_sublist N S1
  have hperm2 : L.Perm T := List.perm_insertionSort _ T
  have hmem : ∀ x ∈ L, x ∈ fs := fun x hx =>
    hperm1.mem_iff.mp (hsubT.subset (hperm2.mem_iff.mp hx))
  have hnd1 : (S1.map (fun x => x.originalIndex)).Nodup :=
    ((hperm1.map (fun x => x.originalIndex)).nodup_iff).mpr hidx
  have hnd2 : (T.map (fun x => x.originalIndex)).Nodup :=
    (hsubT.map (fun x => x.originalIndex)).nodup hnd1
  have hnd3 : (L.map (fun x => x.originalIndex)).Nodup :=
    ((hperm2.map (fun x => x.originalIndex)).nodup_iff).mpr hnd2
  have hne : L.Pairwise (fun a b => a.originalIndex ≠ b.originalIndex) :=
    List.pairwise_map.mp hnd3
  have hsorted : L.Pairwise Summar.byIdx := List.sorted_insertionSort Summar.byIdx T
  have hlt : L.Pairwise (fun a b => a.originalIndex < b.originalIndex) :=
    (hsorted.and hne).imp (fun h => lt_of_le_of_ne h.1 h.2)
  have hPsub : List.Sublist
      ((L.map (fun x => (x.originalIndex, x.sentence))).map Prod.snd) ss := by
    apply map_snd_sublist_of_mono (L.map (fun x => (x.originalIndex, x.sentence))).length
    · exact le_rfl
    · rw [List.pairwise_map]
      exact hlt
    · intro p hp
      rw [List.mem_map] at hp
      obtain ⟨x, hx, rfl⟩ := hp
      exact hval x (hmem x hx)
  constructor
  · rw [List.map_map] at hPsub
    exact hPsub
  · rw [List.length_map, hperm2.length_eq, hT, List.length_take, hperm1.length_eq]

/-- In the at-most-target branch, `generateSummary` returns precisely the
sentence list and its newline join. -/
theorem generateSummary_le_eq (sq : ℚ → ℚ) (text : String) (N now : ℕ)
    (h0 : Summar.tokenizeSentences text ≠ [])
    (h : (Summar.tokenizeSentences text).length ≤ N) :
    (Summar.generateSummary sq text N now).sentences = Summar.tokenizeSentences text ∧
    (Summar.generateSummary sq text N now).summary =
      String.intercalate "\n" (Summar.tokenizeSentences text) := by
  have h0' : ¬ (Summar.tokenizeSentences text).length = 0 := by
    intro hc
    exact h0 (List.eq_nil_of_length_eq_zero hc)
  unfold Summar.generateSummary
  simp only [if_neg h0', if_pos h]
  exact ⟨trivial, trivial⟩

/-- In the more-than-target branch, the returned sentence list is the
score-sorted take re-sorted by original index, and the summary is its newline
join. -/
theorem generateSummary_gt_eq (sq : ℚ → ℚ) (text : String) (N now : ℕ)
    (h : N < (Summar.tokenizeSentences text).length) :
    (Summar.generateSummary sq text N now).sentences =
      (List.insertionSort Summar.byIdx
        ((List.insertionSort Summar.byScoreDesc (Summar.finalScoresOf sq text)).take N)).map
        (fun s => s.sentence) ∧
    (Summar.generateSummary sq text N now).summary =
      String.intercalate "\n" ((Summar.generateSummary sq text N now).sentences) := by
  have h0 : ¬ (Summar.tokenizeSentences text).length = 0 := by omega
  have h1 : ¬ (Summar.tokenizeSentences text).length ≤ N := by omega
  unfold Summar.generateSummary
  simp only [if_neg h0, if_neg h1]
  exact ⟨trivial, trivial⟩

/-- C2 counterexample: a two-sentence transcript with target 3 takes the
at-most-target branch, yet the produced summary is the sentence list joined
with a newline, which differs from the verbatim input text. -/
theorem c2_counterexample :
    (Summar.tokenizeSentences "A. B").length ≤ 3 ∧
    (Summar.generateSummary anySqrt "A. B" 3 0).summary ≠ "A. B" := by
  with_unfolding_all decide

/-- C2 (amended): when the transcript has at least one and at most `N`
sentences, `generateSummary` returns all sentences in original order with the
summary equal to those sentences joined by newlines (not the verbatim input
text); when it has more than `N` sentences, the returned sentence list is a
length-`N` sublist of the sentence list — the selected sentences in their
original relative order, although selection is score-based — and the summary
joins exactly those. -/
theorem c2_summary_preserves_order (sq : ℚ → ℚ) (text : String) (N now : ℕ) :
    (Summar.tokenizeSentences text ≠ [] →
      (Summar.tokenizeSentences text).length ≤ N →
      (Summar.generateSummary sq text N now).sentences = Summar.tokenizeSentences text ∧
      (Summar.generateSummary sq text N now).summary =
        String.intercalate "\n" (Summar.tokenizeSentences text)) ∧
    (N < (Summar.tokenizeSentences text).length →
      List.Sublist (Summar.generateSummary sq text N now).sentences
        (Summar.tokenizeSentences text) ∧
      (Summar.generateSummary sq text N now).sentences.length = N ∧
      (Summar.generateSummary sq text N now).summary =
        String.intercalate "\n" (Summar.generateSummary sq text N now).sentences) := by
  constructor
  · exact fun h0 h => generateSummary_le_eq sq text N now h0 h
  · intro hgt
    obtain ⟨hsent, hsumm⟩ := generateSummary_gt_eq sq text N now hgt
    have hidx : ((Summar.finalScoresOf sq text).map (fun x => x.originalIndex)).Nodup := by
      rw [finalScoresOf_idx]
      exact List.nodup_range _
    have hlen : (Summar.finalScoresOf sq text).length
        = (Summar.tokenizeSentences text).length := by
      have h := congrArg List.length (finalScoresOf_idx sq text)
      simpa using h
    obtain ⟨hsub, hlen2⟩ := top_keeps_order (Summar.finalScoresOf sq text)
      (Summar.tokenizeSentences text) N hidx (finalScoresOf_val sq text)
    refine ⟨?_, ?_, hsumm⟩
    · rw [hsent]
      exact hsub
    · rw [hsent, hlen2, hlen]
      omega

/-- C2 witness: both branches of the order-preservation theorem instantiated
at concrete transcripts. -/
theorem c2_summary_preserves_order_witness :
    ((Summar.generateSummary anySqrt "A. B" 3 0).sentences
        = Summar.tokenizeSentences "A. B" ∧
      (Summar.generateSummary anySqrt "A. B" 3 0).summary =
        String.intercalate "\n" (Summar.tokenizeSentences "A. B")) ∧
    (List.Sublist (Summar.generateSummary anySqrt "Aa. Bb. Cc. Dd" 2 0).sentences
        (Summar.tokenizeSentences "Aa. Bb. Cc. Dd") ∧
      (Summar.generateSummary anySqrt "Aa. Bb. Cc. Dd" 2 0).sentences.length = 2 ∧
      (Summar.generateSummary anySqrt "Aa. Bb. Cc. Dd" 2 0).summary =
        String.intercalate "\n"
          (Summar.generateSummary anySqrt "Aa. Bb. Cc. Dd" 2 0).sentences) :=
  ⟨(c2_summary_preserves_order anySqrt "A. B" 3 0).1 (by decide) (by decide),
   (c2_summary_preserves_order anySqrt "Aa. Bb. Cc. Dd" 2 0).2 (by decide)⟩
/-! ### Claims C3 and C4: semantic search -/

/-- C3: the match-type label of a note can be downgraded.  For the note
titled "budget plan" and the query "plan budge", the first query token "plan"
scores 1.0 against the title and sets the label to exact, but the next token
"budge" scores between 0.7 and 1.0 and the unguarded `else if` branch of the
title loop overwrites the label with keyword: the single returned result
carries the weaker label although an exact title match occurred. -/
theorem c3_matchtype_downgrade :
    Search.calculateSimilarity "budget plan" "plan" = 1 ∧
    (Search.semanticSearch [noteBudgetPlan] "plan budge" (3/10)).map
      (fun r => r.matchType) = [Search.MatchType.keyword] := by
  with_unfolding_all decide

/-- The concept table's keys are pairwise distinct, so association lookup on
it returns exactly the stored neighbour list. -/
theorem SEMANTIC_RELATIONSHIPS_keys_nodup :
    (Search.SEMANTIC_RELATIONSHIPS.map Prod.fst).Nodup := by
  decide

/-- C4: semantic expansion is symmetric over the concept graph: whenever `b`
is listed among `a`'s related terms, the expansion of `a` contains `b` (a
forward edge) and the expansion of `b` contains `a` (reverse lookup over the
whole table); consequently the query "budget" matches the note whose text
contains "finance", and the query "finance" surfaces the note tagged
"budget". -/
theorem c4_expansion_symmetric (a b : String) (vs : List String)
    (h1 : (a, vs) ∈ Search.SEMANTIC_RELATIONSHIPS) (h2 : b ∈ vs) :
    (b ∈ Search.getSemanticExpansions a ∧ a ∈ Search.getSemanticExpansions b) ∧
    (Search.semanticSearch [noteFinanceText] "budget" (3/10)).map
      (fun r => r.note.id) = [noteFinanceText.id] ∧
    (Search.semanticSearch [noteBudgetTag] "finance" (3/10)).map
      (fun r => r.note.id) = [noteBudgetTag.id] := by
  refine ⟨⟨?_, ?_⟩, ?_, ?_⟩
  · unfold Search.getSemanticExpansions
    rw [mem_firstDedup]
    apply List.mem_cons_of_mem
    apply List.mem_append_left
    rw [alookup_eq_some_of_mem SEMANTIC_RELATIONSHIPS_keys_nodup h1]
    exact h2
  · unfold Search.getSemanticExpansions
    rw [mem_firstDedup]
    apply List.mem_cons_of_mem
    apply List.mem_append_right
    rw [List.mem_map]
    refine ⟨(a, vs), ?_, rfl⟩
    rw [List.mem_filter]
    refine ⟨h1, ?_⟩
    simpa using h2
  · with_unfolding_all decide
  · with_unfolding_all decide

/-- C4 witness: the forward edge from "budget" to "finance" instantiates the
symmetry theorem. -/
theorem c4_expansion_symmetric_witness :
    ("finance" ∈ Search.getSemanticExpansions "budget" ∧
      "budget" ∈ Search.getSemanticExpansions "finance") ∧
    (Search.semanticSearch [noteFinanceText] "budget" (3/10)).map
      (fun r => r.note.id) = [noteFinanceText.id] ∧
    (Search.semanticSearch [noteBudgetTag] "finance" (3/10)).map
      (fun r => r.note.id) = [noteBudgetTag.id] :=
  c4_expansion_symmetric "budget" "finance"
    ["finance", "money", "cost", "expense", "spending", "financial", "invest",
     "capital", "funds"]
    (by decide) (by decide)
/-! ### Claim C6: vocabulary richness -/

/-- Rounding to three decimals keeps a value of `[0, 1]` inside `[0, 1]`. -/
theorem round3_bounds (q : ℚ) (h0 : 0 ≤ q) (h1 : q ≤ 1) :
    0 ≤ round3 q ∧ round3 q ≤ 1 := by
  unfold round3 roundJS
  constructor
  · apply div_nonneg _ (by norm_num)
    have : (0 : ℤ) ≤ ⌊q * 1000 + 1/2⌋ := by
      apply Int.le_floor.mpr
      push_cast
      nlinarith
    exact_mod_cast this
  · rw [div_le_one (by norm_num)]
    have : ⌊q * 1000 + 1/2⌋ ≤ 1000 := by
      have hlt : ⌊q * 1000 + 1/2⌋ < 1001 := by
        apply Int.floor_lt.mpr
        push_cast
        nlinarith
      omega
    exact_mod_cast this

/-- C6 counterexample: the transcript "an ox" has nonempty, pairwise-distinct
words, yet its vocabulary richness is 0, not 1: the unique-word count only
covers words longer than two characters while the total counts every word. -/
theorem c6_counterexample :
    (Vocab.tokenizeWords "an ox").Nodup ∧ Vocab.tokenizeWords "an ox" ≠ [] ∧
    (Vocab.analyzeVocabulary [noteAnOx] 0).vocabularyRichness = 0 := by
  with_unfolding_all decide

/-- C6 (amended): the vocabulary richness always lies in `[0, 1]`; and when
the combined transcript's words are nonempty, pairwise distinct and all
longer than two characters, the richness equals 1. -/
theorem c6_richness_bounds (notes : List Note) (now : ℕ) :
    (0 ≤ (Vocab.analyzeVocabulary notes now).vocabularyRichness ∧
      (Vocab.analyzeVocabulary notes now).vocabularyRichness ≤ 1) ∧
    ((Vocab.tokenizeWords
        (String.intercalate " " (notes.map (fun n => n.transcription)))).Nodup →
      Vocab.tokenizeWords
        (String.intercalate " " (notes.map (fun n => n.transcription))) ≠ [] →
      (∀ w ∈ Vocab.tokenizeWords
          (String.intercalate " " (notes.map (fun n => n.transcription))),
        w.length > 2) →
      (Vocab.analyzeVocabulary notes now).vocabularyRichness = 1) := by
  by_cases h1 : notes.length = 0
  · have hnil : notes = [] := List.length_eq_zero.mp h1
    subst hnil
    constructor
    · simp only [Vocab.analyzeVocabulary, if_pos rfl, Vocab.getEmptyInsights]
      norm_num
    · intro _ hne _
      exact absurd (by with_unfolding_all decide) hne
  · by_cases h2 : (Vocab.tokenizeWords
        (String.intercalate " " (notes.map (fun n => n.transcription)))).length = 0
    · constructor
      · simp only [Vocab.analyzeVocabulary, if_neg h1, if_pos h2, Vocab.getEmptyInsights]
        norm_num
      · intro _ hne _
        exact absurd (List.length_eq_zero.mp h2) hne
    · have hpos : (0 : ℚ) <
          ((Vocab.tokenizeWords
            (String.intercalate " " (notes.map (fun n => n.transcription)))).length : ℚ) := by
        have := Nat.pos_of_ne_zero h2
        exact_mod_cast this
      constructor
      · simp only [Vocab.analyzeVocabulary, if_neg h1, if_neg h2, List.length_map]
        apply round3_bounds
        · apply div_nonneg _ (le_of_lt hpos)
          exact_mod_cast Nat.zero_le _
        · rw [div_le_one hpos]
          have hle : (firstDedup ((Vocab.tokenizeWords
              (String.intercalate " " (notes.map (fun n => n.transcription)))).filter
                (fun w => decide (w.length > 2)))).length ≤
              (Vocab.tokenizeWords
                (String.intercalate " " (notes.map (fun n => n.transcription)))).length :=
            le_trans (length_firstDedup_le _) (List.length_filter_le _ _)
          exact_mod_cast hle
      · intro hnd hne hall
        simp only [Vocab.analyzeVocabulary, if_neg h1, if_neg h2]
        rw [List.filter_eq_self.mpr (fun w hw => by
          simpa using hall w hw)]
        rw [firstDedup_eq_self hnd, List.length_map]
        rw [div_self (ne_of_gt hpos)]
        with_unfolding_all decide

/-- C6 witness: the transcript "cat dog" has two distinct three-letter words,
so its richness is 1 and within bounds. -/
theorem c6_richness_bounds_witness :
    (0 ≤ (Vocab.analyzeVocabulary [noteCatDog] 0).vocabularyRichness ∧
      (Vocab.analyzeVocabulary [noteCatDog] 0).vocabularyRichness ≤ 1) ∧
    (Vocab.analyzeVocabulary [noteCatDog] 0).vocabularyRichness = 1 :=
  ⟨(c6_richness_bounds [noteCatDog] 0).1,
   (c6_richness_bounds [noteCatDog] 0).2 (by decide) (by decide) (by decide)⟩
/-! ### Claim C7: repeat analysis -/

/-- C7 counterexample: the result object embeds the invocation time, so two
invocations of the same analyzer on the same transcript at different times
return different objects. -/
theorem c7_counterexample :
    Sentiment.analyzeSentiment "" 0 ≠ Sentiment.analyzeSentiment "" 1 := by
  with_unfolding_all decide

/-- C7 (amended): each analyzer is deterministic modulo its embedded
timestamp: for every input, two invocations at arbitrary times agree on every
field except the date field. -/
theorem c7_deterministic_modulo_timestamp (sq : ℚ → ℚ) (text : String)
    (N : ℕ) (notes : List Note) (now now' : ℕ) :
    (Sentiment.analyzeSentiment text now).core =
      (Sentiment.analyzeSentiment text now').core ∧
    (Summar.generateSummary sq text N now).core =
      (Summar.generateSummary sq text N now').core ∧
    (Vocab.analyzeVocabulary notes now).core =
      (Vocab.analyzeVocabulary notes now').core := by
  refine ⟨?_, ?_, ?_⟩
  · by_cases h : text = "" ∨ (trimJS text).length = 0
    · simp only [Sentiment.analyzeSentiment, if_pos h]
      rfl
    · simp only [Sentiment.analyzeSentiment, if_neg h]
      rfl
  · by_cases h1 : (Summar.tokenizeSentences text).length = 0
    · simp only [Summar.generateSummary, if_pos h1]
      rfl
    · by_cases h2 : (Summar.tokenizeSentences text).length ≤ N
      · simp only [Summar.generateSummary, if_neg h1, if_pos h2]
        rfl
      · simp only [Summar.generateSummary, if_neg h1, if_neg h2]
        rfl
  · by_cases h1 : notes.length = 0
    · simp only [Vocab.analyzeVocabulary, if_pos h1, Vocab.getEmptyInsights]
      rfl
    · by_cases h2 : (Vocab.tokenizeWords
          (String.intercalate " " (notes.map (fun n => n.transcription)))).length = 0
      · simp only [Vocab.analyzeVocabulary, if_neg h1, if_pos h2, Vocab.getEmptyInsights]
        rfl
      · simp only [Vocab.analyzeVocabulary, if_neg h1, if_neg h2]
        rfl
/-! ### Claim C9: filler-word removal on the spec's example -/

/-- C9: on the transcript "Um, I think this is, like, good" the cleaned text
contains neither "um" nor "like" (case-insensitively), has no doubled spaces,
neither starts nor ends with whitespace, the analysis counts at least one
filler word, and `removeFillerWords` returns exactly the analysis's cleaned
text. -/
theorem c9_remove_filler_words :
    Filler.removeFillerWords "Um, I think this is, like, good" =
      (Filler.analyzeFillerWords "Um, I think this is, like, good").cleanedText ∧
    ¬ containsSub
      (lowerJS (Filler.analyzeFillerWords "Um, I think this is, like, good").cleanedText)
      "um" ∧
    ¬ containsSub
      (lowerJS (Filler.analyzeFillerWords "Um, I think this is, like, good").cleanedText)
      "like" ∧
    ¬ containsSub
      (Filler.analyzeFillerWords "Um, I think this is, like, good").cleanedText "  " ∧
    trimJS (Filler.analyzeFillerWords "Um, I think this is, like, good").cleanedText =
      (Filler.analyzeFillerWords "Um, I think this is, like, good").cleanedText ∧
    (Filler.analyzeFillerWords "Um, I think this is, like, good").totalFillerWords > 0 := by
  with_unfolding_all decide
/-! ### Claim C8: named-entity extraction -/

/-- The accumulator loop of `extractEntities` emits exactly the runs that a
later non-capitalized word terminates: with the pending run `cur` (made of
capitalized cleaned words) prepended, it produces the flattened `emitRun`
image of all chunks of the cleaned word list except the final, unterminated
one. -/
theorem entitiesGo_spec : ∀ (ws cur : List String),
    (∀ c ∈ cur, AutoTag.isCapWord c = true) →
    AutoTag.entitiesGo ws cur =
      (((cur ++ ws.map AutoTag.cleanWordJS).splitOnP
        (fun cw => !AutoTag.isCapWord cw)).dropLast).flatMap AutoTag.emitRun
  | [], cur, hcur => by
    simp only [AutoTag.entitiesGo, List.map_nil, List.append_nil]
    have hnp : ∀ x ∈ cur, ¬((fun cw => !AutoTag.isCapWord cw) x = true) := by
      intro x hx
      simp [hcur x hx]
    rw [List.splitOnP_eq_single _ _ hnp]
    rfl
  | w :: ws, cur, hcur => by
    simp only [AutoTag.entitiesGo]
    by_cases h : AutoTag.isCapWord (AutoTag.cleanWordJS w) = true
    · rw [if_pos h]
      rw [entitiesGo_spec ws (cur ++ [AutoTag.cleanWordJS w]) (by
        intro c hc
        rcases List.mem_append.mp hc with hc | hc
        · exact hcur c hc
        · rw [List.mem_singleton.mp hc]
          exact h)]
      rw [List.map_cons, List.append_assoc]
      rfl
    · rw [if_neg h]
      rw [entitiesGo_spec ws [] (fun c hc => absurd hc (List.not_mem_nil c))]
      have hnp : ∀ x ∈ cur, ¬((fun cw => !AutoTag.isCapWord cw) x = true) := by
        intro x hx
        simp [hcur x hx]
      have hsep : (fun cw => !AutoTag.isCapWord cw) (AutoTag.cleanWordJS w) = true := by
        show (!AutoTag.isCapWord (AutoTag.cleanWordJS w)) = true
        cases hb : AutoTag.isCapWord (AutoTag.cleanWordJS w)
        · rfl
        · exact absurd hb h
      rw [List.map_cons,
        List.splitOnP_first _ _ hnp (AutoTag.cleanWordJS w) hsep
          (List.map AutoTag.cleanWordJS ws),
        List.dropLast_cons_of_ne_nil (List.splitOnP_ne_nil _ _),
        List.flatMap_cons, List.nil_append]

/-- C8 counterexample: in "went to New York" the capitalized run "New York"
(two words, joined length over three) ends at the end of the text, yet no tag
for it is produced: the accumulator loop never flushes a run still open when
the words run out. -/
theorem c8_counterexample :
    AutoTag.specEntityList (splitRuns isSpaceJS "went to New York x") = ["New York"] ∧
    "New York" ∈ AutoTag.generateTags "went to New York x" ∧
    "New York" ∉ AutoTag.generateTags "went to New York" := by
  with_unfolding_all decide

/-- C8 (amended): for every nonempty text the emitted named entities are
exactly the *terminated* maximal capitalized runs — at least 2 words, joined
length at least 4, and followed by a further non-capitalized word — in
occurrence order, deduplicated and capped at 3; a run ending at the end of
the text is dropped.  With that reading, `generateTags` is the deduplicated,
10-capped concatenation of topics, these entities, proper nouns and dates. -/
theorem c8_entities_are_terminated_runs (text : String) (h : text ≠ "") :
    AutoTag.extractEntities text =
      (firstDedup (AutoTag.specEntityList (splitRuns isSpaceJS text))).take 3 ∧
    AutoTag.generateTags text =
      (firstDedup (AutoTag.extractTopics text ++
        (firstDedup (AutoTag.specEntityList (splitRuns isSpaceJS text))).take 3 ++
        AutoTag.extractProperNouns text ++ AutoTag.extractDates text)).take 10 := by
  have he : AutoTag.extractEntities text =
      (firstDedup (AutoTag.specEntityList (splitRuns isSpaceJS text))).take 3 := by
    unfold AutoTag.extractEntities
    rw [entitiesGo_spec _ [] (by intro c hc; simp at hc)]
    rfl
  refine ⟨he, ?_⟩
  unfold AutoTag.generateTags
  rw [if_neg h, he]

/-- C8 witness: the amended characterization instantiated at the transcript
"went to New York x". -/
theorem c8_entities_are_terminated_runs_witness :
    AutoTag.extractEntities "went to New York x" =
      (firstDedup (AutoTag.specEntityList (splitRuns isSpaceJS "went to New York x"))).take 3 ∧
    AutoTag.generateTags "went to New York x" =
      (firstDedup (AutoTag.extractTopics "went to New York x" ++
        (firstDedup (AutoTag.specEntityList
          (splitRuns isSpaceJS "went to New York x"))).take 3 ++
        AutoTag.extractProperNouns "went to New York x" ++
        AutoTag.extractDates "went to New York x")).take 10 :=
  c8_entities_are_terminated_runs "went to New York x" (by decide)
end VoiceNotes




